import Mathlib

/-!
Verification of the MILMS question extractor (`quiz/utils.py`) and the
multi-stage descriptive-answer evaluator (`descriptive_evaluation.py`).

The Python code is shallowly embedded: pure functions become Lean
functions, Python numbers that carry scores become exact rationals,
fallible operations (dictionary indexing, `len` on arbitrary JSON
values, `json.loads`) become `Except String`-valued functions, and the
external text-generation capability becomes an explicit list of
responses consumed call by call.  Loops whose termination metric is not
structural are given an explicit fuel argument that provably dominates
the number of iterations (each iteration consumes at least one input
element), keeping every definition kernel-computable.
-/

set_option maxHeartbeats 1600000
set_option maxRecDepth 16000

namespace Milms

/-! ## Python string primitives -/

/-- Python whitespace for `str.strip` / `\s` (ASCII part). -/
def pyIsSpace (c : Char) : Bool :=
  c = ' ' || c = '\t' || c = '\n' || c = '\r' || c = '\x0b' || c = '\x0c'

/-- `str.strip()` on a character list. -/
def stripChars (cs : List Char) : List Char :=
  ((cs.dropWhile pyIsSpace).reverse.dropWhile pyIsSpace).reverse

/-- `str.strip()`. -/
def pyStrip (s : String) : String := ⟨stripChars s.data⟩

/-- `str.rstrip()`. -/
def pyRstrip (s : String) : String := ⟨(s.data.reverse.dropWhile pyIsSpace).reverse⟩

def isAsciiDigit (c : Char) : Bool := '0' ≤ c && c ≤ '9'

def isAsciiAlpha (c : Char) : Bool := ('a' ≤ c && c ≤ 'z') || ('A' ≤ c && c ≤ 'Z')

/-- `str.lower()` (ASCII). -/
def pyLower (s : String) : String := ⟨s.data.map Char.toLower⟩

/-- `str.endswith(t)` (list-based, kernel-computable). -/
def pyEndsWith (s t : String) : Bool := t.data.isSuffixOf s.data

/-- Worker for whitespace splitting; each iteration consumes at least one
character, so `cs.length` fuel is enough. -/
def splitWsAux (fuel : Nat) (cs : List Char) : List String :=
  match fuel with
  | 0 => []
  | fuel + 1 =>
    match cs with
    | [] => []
    | c :: rest =>
      if pyIsSpace c then splitWsAux fuel rest
      else
        ⟨(c :: rest).takeWhile (fun x => !pyIsSpace x)⟩ ::
          splitWsAux fuel (rest.dropWhile (fun x => !pyIsSpace x))

/-- `str.split()` with no separator: split on whitespace runs, dropping
empties. -/
def pySplitWs (s : String) : List String := splitWsAux s.data.length s.data

/-- `text.split('\n')` on a character list (keeps empty pieces). -/
def splitNlChars (cs : List Char) : List String :=
  match cs with
  | [] => [""]
  | c :: rest =>
    if c = '\n' then "" :: splitNlChars rest
    else
      match splitNlChars rest with
      | [] => [⟨[c]⟩]
      | w :: ws => (⟨c :: w.data⟩ : String) :: ws

/-- `text.split('\n')`. -/
def pySplitNl (s : String) : List String := splitNlChars s.data

/-! ## Question parser (`quiz/utils.py`, class `QuestionParser`) -/

/-- An option of a multiple-choice question (`{'text': ..., 'is_correct': ...}`). -/
structure POption where
  text : String
  is_correct : Bool
deriving DecidableEq, Repr

/-- A parsed question record (`{'question': ..., 'options': [...]}`). -/
structure PQuestion where
  question : String
  options : List POption
deriving DecidableEq, Repr

/-- Number of options flagged correct. -/
def countCorrect (os : List POption) : Nat := (os.filter (fun o => o.is_correct)).length

/-- The fixed interrogative/auxiliary word list of `QuestionParser._is_question`. -/
def questionWords : List String :=
  ["what", "which", "where", "when", "who", "whom", "whose",
   "why", "how", "is", "are", "was", "were", "do", "does",
   "did", "can", "could", "will", "would", "should"]

/-- `QuestionParser._is_question`. -/
def is_question (s : String) : Bool :=
  if s.length < 5 then false
  else
    let endsMarker := pyEndsWith s "?" || pyEndsWith s "." || pyEndsWith s ":"
    let firstWord := pyLower ((pySplitWs s).headD "")
    let startsQ := questionWords.contains firstWord
    endsMarker || (startsQ && s.length > 10)

/-- Letters accepted by the option marker pattern `[a-dA-D]`. -/
def isOptLetter (c : Char) : Bool :=
  ('a' ≤ c && c ≤ 'd') || ('A' ≤ c && c ≤ 'D')

/-- Delimiters of the option marker pattern `[\)\]\.:\-\s]`. -/
def isOptDelim (c : Char) : Bool :=
  c = ')' || c = ']' || c = '.' || c = ':' || c = '-' || pyIsSpace c

/-- Match of the regex `^[\(\[]?[a-dA-D][\)\]\.:\-\s]` (with backtracking on
the optional bracket). -/
def optionMarkerMatch (cs : List Char) : Bool :=
  match cs with
  | b :: a :: d :: _ =>
    ((b = '(' || b = '[') && isOptLetter a && isOptDelim d) ||
      (isOptLetter b && isOptDelim a)
  | [a, d] => isOptLetter a && isOptDelim d
  | _ => false

/-- `QuestionParser._is_option`. -/
def is_option (s : String) : Bool :=
  if s.length < 1 then false
  else optionMarkerMatch s.data || (s.length < 100 && !is_question s)

/-- Removal of the prefix matched by `^[\(\[]?[a-dA-D][\)\]\.:\-\s]+`
(greedy `+`, backtracking on the optional bracket); identity when the
pattern does not match. -/
def stripOptionMarker (cs : List Char) : List Char :=
  match cs with
  | b :: a :: d :: rest =>
    if (b = '(' || b = '[') && isOptLetter a && isOptDelim d then
      (d :: rest).dropWhile isOptDelim
    else if isOptLetter b && isOptDelim a then
      (a :: d :: rest).dropWhile isOptDelim
    else cs
  | [a, d] => if isOptLetter a && isOptDelim d then [] else cs
  | cs => cs

/-- `QuestionParser._parse_option`: strip a trailing `*` correctness marker,
then the leading option marker, then surrounding whitespace. -/
def parse_option (s : String) : String × Bool :=
  let r := pyRstrip s
  let isCorrect := pyEndsWith r "*"
  let t := if isCorrect then pyStrip ⟨r.data.dropLast⟩ else s
  (pyStrip ⟨stripOptionMarker t.data⟩, isCorrect)

/-- Drop an optional `.` (regex `\.?`). -/
def dropOptDot (cs : List Char) : List Char :=
  match cs with
  | '.' :: rest => rest
  | cs => cs

/-- Alternative 1 of the numbering regex: `\d+\.?\s*`. -/
def numAlt1 (cs : List Char) : Option (List Char) :=
  let ds := cs.takeWhile isAsciiDigit
  if ds.isEmpty then none
  else some (((cs.drop ds.length) |> dropOptDot).dropWhile pyIsSpace)

/-- Alternative 2: `\(?[a-zA-Z]\)\.?\s*` (closing paren mandatory). -/
def numAlt2 (cs : List Char) : Option (List Char) :=
  match cs with
  | '(' :: a :: ')' :: rest =>
    if isAsciiAlpha a then some ((dropOptDot rest).dropWhile pyIsSpace) else none
  | a :: ')' :: rest =>
    if isAsciiAlpha a then some ((dropOptDot rest).dropWhile pyIsSpace) else none
  | _ => none

/-- Alternative 3: `Q\d+\.?\s*`. -/
def numAlt3 (cs : List Char) : Option (List Char) :=
  match cs with
  | 'Q' :: rest =>
    let ds := rest.takeWhile isAsciiDigit
    if ds.isEmpty then none
    else some (((rest.drop ds.length) |> dropOptDot).dropWhile pyIsSpace)
  | _ => none

/-- Alternative 4: `Question\s+\d+\.?\s*`. -/
def numAlt4 (cs : List Char) : Option (List Char) :=
  if ("Question".data).isPrefixOf cs then
    let r := cs.drop 8
    let ws := r.takeWhile pyIsSpace
    if ws.isEmpty then none
    else
      let r2 := r.drop ws.length
      let ds := r2.takeWhile isAsciiDigit
      if ds.isEmpty then none
      else some (((r2.drop ds.length) |> dropOptDot).dropWhile pyIsSpace)
  else none

/-- `re.sub(r'^(\d+\.?\s*|\(?[a-zA-Z]\)\.?\s*|Q\d+\.?\s*|Question\s+\d+\.?\s*)', '', line)`:
the anchored pattern can only match a prefix; alternatives are tried in
order, each greedy. -/
def stripNumbering (s : String) : String :=
  match numAlt1 s.data with
  | some r => ⟨r⟩
  | none =>
    match numAlt2 s.data with
    | some r => ⟨r⟩
    | none =>
      match numAlt3 s.data with
      | some r => ⟨r⟩
      | none =>
        match numAlt4 s.data with
        | some r => ⟨r⟩
        | none => s

/-- The line cleaning loop at the top of `QuestionParser._parse_questions`:
strip, remove numbering, keep non-empty lines. -/
def cleanLines (lines : List String) : List String :=
  match lines with
  | [] => []
  | l :: rest =>
    let l := stripNumbering (pyStrip l)
    if l ≠ "" then l :: cleanLines rest else cleanLines rest

/-- The inner option-collection loop of `QuestionParser._parse_questions`:
collect up to 4 options, stopping early when another question line is seen
after at least one option. Returns the options and the unconsumed lines. -/
def collectOptions (lines : List String) (opts : List POption) :
    List POption × List String :=
  match lines with
  | [] => (opts, [])
  | l :: rest =>
    if 4 ≤ opts.length then (opts, l :: rest)
    else if is_question l && decide (0 < opts.length) then (opts, l :: rest)
    else if is_option l then
      let (t, c) := parse_option l
      if t ≠ "" then collectOptions rest (opts ++ [⟨t, c⟩])
      else collectOptions rest opts
    else collectOptions rest opts

/-- Mark the first option correct (`options[0]['is_correct'] = True`). -/
def markFirstCorrect (os : List POption) : List POption :=
  match os with
  | [] => []
  | o :: rest => { o with is_correct := true } :: rest

/-- The demote-all-but-first-correct loop of `_fix_question_structure`. -/
def demoteAux (found : Bool) (os : List POption) : List POption :=
  match os with
  | [] => []
  | o :: rest =>
    if o.is_correct && !found then o :: demoteAux true rest
    else { o with is_correct := false } :: demoteAux found rest

/-- Placeholder padding loop (`while len(options) < 4: append 'Option k'`);
each iteration grows the list by one, so 4 rounds of fuel always reach
length ≥ 4. -/
def padOptionsF (fuel : Nat) (os : List POption) : List POption :=
  match fuel with
  | 0 => os
  | fuel + 1 =>
    if os.length < 4 then
      padOptionsF fuel (os ++ [⟨"Option " ++ toString (os.length + 1), false⟩])
    else os

def padOptions (os : List POption) : List POption := padOptionsF 4 os

/-- First section of `_fix_question_structure` (lines 173-190): normalize the
number of correct answers, returning the adjusted options and the
`correct_count` variable. -/
def fixAdjust (options : List POption) : List POption × Nat :=
  if countCorrect options ≠ 1 then
    if countCorrect options = 0 ∧ 4 ≤ options.length then (markFirstCorrect options, 1)
    else if 1 < countCorrect options then (demoteAux false options, 1)
    else (options, countCorrect options)
  else (options, countCorrect options)

/-- Second section of `_fix_question_structure` (lines 192-208): pad short
option lists, trim long ones keeping the first correct option plus the first
three non-correct ones. -/
def fixResize (options : List POption) : List POption :=
  if options.length < 4 then padOptions options
  else if 4 < options.length then
    if options.filter (fun o => o.is_correct) ≠ [] then
      (options.filter (fun o => o.is_correct)).take 1 ++
        (options.filter (fun o => !o.is_correct)).take 3
    else options.take 4
  else options

/-- `QuestionParser._fix_question_structure`. -/
def fix_question_structure (question_text : String) (options : List POption) :
    Option PQuestion :=
  if (fixResize (fixAdjust options).1).length = 4 ∧ (fixAdjust options).2 = 1 then
    some ⟨question_text, fixResize (fixAdjust options).1⟩
  else none

/-- The main loop of `QuestionParser._parse_questions` (operating on the
cleaned lines); the loop index advances every iteration, so `lines.length`
fuel is enough. -/
def parseLoopF (fuel : Nat) (lines : List String) : List PQuestion :=
  match fuel with
  | 0 => []
  | fuel + 1 =>
    match lines with
    | [] => []
    | l :: rest =>
      if is_question l then
        let p := collectOptions rest []
        (if p.1.length = 4 ∧ countCorrect p.1 = 1 then [⟨l, p.1⟩]
         else if 0 < p.1.length then (fix_question_structure l p.1).toList
         else []) ++ parseLoopF fuel p.2
      else parseLoopF fuel rest

/-- `QuestionParser._parse_questions`: split on newlines, clean, run the loop. -/
def parse_questions (text : String) : List PQuestion :=
  parseLoopF (cleanLines (pySplitNl text)).length (cleanLines (pySplitNl text))

/-- `parse_question_from_docx` (Django-facing wrapper), applied to the text
already extracted from the document (document decoding is the external
collaborator's concern): raises when no questions were found. -/
def parse_question_from_docx (text : String) : Except String (List PQuestion) :=
  if (parse_questions text).isEmpty then
    .error "Error parsing Word document: No valid questions found in the document. Please check the format."
  else .ok (parse_questions text)

/-- `parse_question_from_pdf`, same shape as the docx variant. -/
def parse_question_from_pdf (text : String) : Except String (List PQuestion) :=
  if (parse_questions text).isEmpty then
    .error "Error parsing PDF: No valid questions found in the PDF. Please check the format."
  else .ok (parse_questions text)

/-- Structural well-formedness of an emitted record: exactly 4 options,
exactly 1 of them correct. -/
def goodQuestion (q : PQuestion) : Bool :=
  q.options.length = 4 && countCorrect q.options = 1

/-! ## Structural lemmas about the repair step -/

theorem countCorrect_append (xs ys : List POption) :
    countCorrect (xs ++ ys) = countCorrect xs + countCorrect ys := by
  simp [countCorrect, List.filter_append]

theorem demoteAux_true_count (os : List POption) :
    countCorrect (demoteAux true os) = 0 := by
  induction os with
  | nil => simp [demoteAux, countCorrect]
  | cons o rest ih =>
    simp only [demoteAux, Bool.not_true, Bool.and_false, Bool.false_eq_true,
      if_false]
    simpa [countCorrect, List.filter_cons] using ih

theorem demoteAux_false_count (os : List POption) (h : 0 < countCorrect os) :
    countCorrect (demoteAux false os) = 1 := by
  induction os with
  | nil => simp [countCorrect] at h
  | cons o rest ih =>
    by_cases hc : o.is_correct
    · simp only [demoteAux, hc, Bool.not_false, Bool.and_self, if_true]
      have h2 := demoteAux_true_count rest
      simp only [countCorrect, List.filter_cons, hc, if_true] at *
      simp [h2]
    · simp only [demoteAux, hc, Bool.false_and, Bool.false_eq_true, if_false]
      simp only [countCorrect, List.filter_cons, hc, Bool.false_eq_true,
        if_false] at h ⊢
      exact ih h

theorem demoteAux_length (found : Bool) (os : List POption) :
    (demoteAux found os).length = os.length := by
  induction os generalizing found with
  | nil => simp [demoteAux]
  | cons o rest ih =>
    simp only [demoteAux]
    split <;> simp [ih]

theorem markFirstCorrect_count (os : List POption) (h0 : countCorrect os = 0)
    (hne : os ≠ []) : countCorrect (markFirstCorrect os) = 1 := by
  cases os with
  | nil => simp at hne
  | cons o rest =>
    have hrest : countCorrect rest = 0 := by
      simp only [countCorrect, List.filter_cons] at h0
      split at h0 <;> simp_all [countCorrect]
    simp [markFirstCorrect, countCorrect, List.filter_cons, hrest]
    simpa [countCorrect] using hrest

theorem markFirstCorrect_length (os : List POption) :
    (markFirstCorrect os).length = os.length := by
  cases os <;> simp [markFirstCorrect]

theorem padOptionsF_count (fuel : Nat) (os : List POption) :
    countCorrect (padOptionsF fuel os) = countCorrect os := by
  induction fuel generalizing os with
  | zero => rfl
  | succ n ih =>
    simp only [padOptionsF]
    split
    · rw [ih, countCorrect_append]
      simp [countCorrect]
    · rfl

theorem padOptionsF_length (fuel : Nat) (os : List POption)
    (h : 4 ≤ os.length + fuel) : (padOptionsF fuel os).length = max os.length 4 := by
  induction fuel generalizing os with
  | zero => simp only [padOptionsF]; omega
  | succ n ih =>
    simp only [padOptionsF]
    split
    · rename_i hlt
      rw [ih _ (by simp; omega)]
      simp only [List.length_append, List.length_cons, List.length_nil]
      omega
    · omega

theorem padOptions_length (os : List POption) :
    (padOptions os).length = max os.length 4 :=
  padOptionsF_length 4 os (by omega)

theorem padOptions_count (os : List POption) :
    countCorrect (padOptions os) = countCorrect os :=
  padOptionsF_count 4 os

theorem filter_correct_count (os : List POption) :
    (os.filter (fun o => o.is_correct)).length = countCorrect os := rfl

theorem countCorrect_filter_correct (os : List POption) :
    countCorrect (os.filter (fun o => o.is_correct)) = countCorrect os := by
  simp [countCorrect, List.filter_filter]

theorem countCorrect_filter_not (os : List POption) :
    countCorrect (os.filter (fun o => !o.is_correct)) = 0 := by
  simp only [countCorrect, List.filter_filter, List.length_eq_zero]
  apply List.filter_eq_nil_iff.mpr
  intro a _
  cases h : a.is_correct <;> simp [h]

theorem countCorrect_take_le (n : Nat) (os : List POption) :
    countCorrect (os.take n) ≤ countCorrect os := by
  induction os generalizing n with
  | nil => simp
  | cons o rest ih =>
    cases n with
    | zero => simp [countCorrect]
    | succ m =>
      simp only [List.take_succ_cons, countCorrect, List.filter_cons]
      split
      · simpa [countCorrect] using ih m
      · simpa [countCorrect] using ih m

theorem length_filter_not (os : List POption) :
    (os.filter (fun o => !o.is_correct)).length = os.length - countCorrect os := by
  induction os with
  | nil => simp [countCorrect]
  | cons o rest ih =>
    have hle : countCorrect rest ≤ rest.length := by
      simpa [countCorrect] using List.length_filter_le (fun o => o.is_correct) rest
    by_cases hc : o.is_correct <;>
      simp only [List.filter_cons, countCorrect, hc, Bool.not_true, Bool.not_false,
        Bool.false_eq_true, if_false, if_true, List.length_cons] at *
    · omega
    · omega

theorem fixAdjust_count (os : List POption) (h : (fixAdjust os).2 = 1) :
    countCorrect (fixAdjust os).1 = 1 := by
  unfold fixAdjust at h ⊢
  split_ifs at h ⊢ with h1 h2 h3
  · refine markFirstCorrect_count os h2.1 ?_
    intro hnil
    rw [hnil] at h2
    simp at h2
  · exact demoteAux_false_count os (by omega)
  · exact absurd h h1
  · exact not_not.mp h1

theorem fixResize_props (os : List POption) (h : countCorrect os = 1) :
    (fixResize os).length = 4 ∧ countCorrect (fixResize os) = 1 := by
  unfold fixResize
  by_cases hlt : os.length < 4
  · simp only [hlt, if_pos]
    exact ⟨by rw [padOptions_length]; omega, by rw [padOptions_count, h]⟩
  · simp only [hlt, if_false]
    by_cases hgt : 4 < os.length
    · have hcne : os.filter (fun o => o.is_correct) ≠ [] := by
        intro hnil
        have h2 := filter_correct_count os
        rw [hnil] at h2
        simp [h] at h2
      simp only [hgt, if_pos, hcne, ne_eq, not_false_eq_true, if_true]
      have hclen : (os.filter (fun o => o.is_correct)).length = 1 := by
        rw [filter_correct_count, h]
      have holen : (os.filter (fun o => !o.is_correct)).length = os.length - 1 := by
        rw [length_filter_not, h]
      constructor
      · rw [List.length_append, List.length_take, List.length_take, hclen, holen]
        omega
      · rw [countCorrect_append]
        have htake1 : (os.filter (fun o => o.is_correct)).take 1
            = os.filter (fun o => o.is_correct) := by
          apply List.take_of_length_le
          omega
        rw [htake1, countCorrect_filter_correct, h]
        have hz : countCorrect ((os.filter (fun o => !o.is_correct)).take 3) = 0 := by
          have hle := countCorrect_take_le 3 (os.filter (fun o => !o.is_correct))
          rw [countCorrect_filter_not] at hle
          omega
        omega
    · simp only [hgt, if_false]
      exact ⟨by omega, h⟩

/-- Any record returned by the repair step has exactly 4 options with
exactly 1 correct. -/
theorem fix_some_good (q : String) (os : List POption) (r : PQuestion)
    (h : fix_question_structure q os = some r) : goodQuestion r = true := by
  unfold fix_question_structure at h
  split at h
  · rename_i hguard
    have hcount := fixAdjust_count os hguard.2
    have hprops := (fixResize_props (fixAdjust os).1 hcount).2
    cases h
    simp [goodQuestion, hguard.1, hprops]
  · exact absurd h (by simp)

/-- Every record in the output of the parsing loop is structurally good. -/
theorem parseLoopF_good (fuel : Nat) (lines : List String) :
    ∀ q ∈ parseLoopF fuel lines, goodQuestion q = true := by
  induction fuel generalizing lines with
  | zero => intro q hq; simp [parseLoopF] at hq
  | succ n ih =>
    intro q hq
    match lines with
    | [] => simp [parseLoopF] at hq
    | l :: rest =>
      rw [parseLoopF] at hq
      by_cases hq1 : is_question l = true
      · simp only [hq1, if_true, List.mem_append] at hq
        rcases hq with hmem | hmem
        · split at hmem
          · rename_i hguard
            simp only [List.mem_singleton] at hmem
            subst hmem
            simp [goodQuestion, hguard.1, hguard.2]
          · split at hmem
            · rcases hfix : fix_question_structure l (collectOptions rest []).1 with _ | r
              · rw [hfix] at hmem; simp at hmem
              · rw [hfix] at hmem
                simp only [Option.toList_some, List.mem_singleton] at hmem
                subst hmem
                exact fix_some_good _ _ _ hfix
            · simp at hmem
        · exact ih _ q hmem
      · simp only [hq1, if_false] at hq
        exact ih _ q hq

/-- C1: every `ParsedQuestion` emitted by `_parse_questions` — whether
accepted directly or produced via the structural-repair path — has exactly
4 options and exactly 1 correct option. -/
theorem extractor_invariant_four_options_one_correct (text : String) :
    ∀ q ∈ parse_questions text, q.options.length = 4 ∧ countCorrect q.options = 1 := by
  intro q hq
  have hgood := parseLoopF_good _ _ q hq
  simpa [goodQuestion] using hgood

/-- C1 witness: on a concrete document the extractor emits a record, and the
invariant holds of it. -/
theorem extractor_invariant_witness :
    (parse_questions "What is 2+2?\na) 3\nb) 4*\nc) 5\nd) 6").length = 1 ∧
      ∀ q ∈ parse_questions "What is 2+2?\na) 3\nb) 4*\nc) 5\nd) 6",
        q.options.length = 4 ∧ countCorrect q.options = 1 := by
  refine ⟨by decide, ?_⟩
  exact extractor_invariant_four_options_one_correct _

/-- C7: whenever the parsed text yields zero surviving question records, the
caller-facing extraction functions (docx and pdf variants) fail with the
"no valid questions found" diagnostic, and a successful result is never
empty. -/
theorem extraction_fails_on_zero_questions (text : String) :
    (parse_questions text = [] →
      parse_question_from_docx text =
        .error "Error parsing Word document: No valid questions found in the document. Please check the format." ∧
      parse_question_from_pdf text =
        .error "Error parsing PDF: No valid questions found in the PDF. Please check the format.") ∧
    (∀ qs, parse_question_from_docx text = .ok qs → qs ≠ []) ∧
    (∀ qs, parse_question_from_pdf text = .ok qs → qs ≠ []) := by
  refine ⟨fun h => ⟨?_, ?_⟩, fun qs h => ?_, fun qs h => ?_⟩
  · simp [parse_question_from_docx, h]
  · simp [parse_question_from_pdf, h]
  · unfold parse_question_from_docx at h
    split at h
    · exact absurd h (by simp)
    · rename_i hne
      cases h
      simpa [List.isEmpty_iff] using hne
  · unfold parse_question_from_pdf at h
    split at h
    · exact absurd h (by simp)
    · rename_i hne
      cases h
      simpa [List.isEmpty_iff] using hne

/-- C7 witness: a concrete no-question document makes both extraction
functions fail, and concretely no `.ok []` escape exists. -/
theorem extraction_fails_witness :
    parse_questions "just some plain words" = [] ∧
      parse_question_from_docx "just some plain words" =
        .error "Error parsing Word document: No valid questions found in the document. Please check the format." := by
  have h : parse_questions "just some plain words" = [] := by decide
  exact ⟨h, ((extraction_fails_on_zero_questions "just some plain words").1 h).1⟩

/-! ## The trimming branch of the repair step (claim C8) -/

/-- C8 counterexample: on five options whose unique correct option is the
second one, the repair step returns the correct option moved to the front —
`[b1, a0, c2, d3]` — which is not a subsequence of the original order, so
the repair does not preserve the original relative order of the input
options. -/
theorem fix_trim_reorders_counterexample :
    (fix_question_structure "What color is the sky?"
        [⟨"a0", false⟩, ⟨"b1", true⟩, ⟨"c2", false⟩, ⟨"d3", false⟩, ⟨"e4", false⟩]).map
        (fun r => r.options.map (fun o => o.text)) = some ["b1", "a0", "c2", "d3"] ∧
      ¬ List.Sublist ["b1", "a0", "c2", "d3"] ["a0", "b1", "c2", "d3", "e4"] := by
  constructor
  · decide
  · decide

theorem filter_correct_nil_iff (os : List POption) :
    os.filter (fun o => o.is_correct) = [] ↔ countCorrect os = 0 := by
  rw [← filter_correct_count, List.length_eq_zero]

/-- C8 amended: on more than 4 options, the repair keeps the unique correct
option (moved to the front) followed by the first three non-correct options
in their original relative order; when no option is marked correct, it
first marks the first option correct and then keeps the first four options. -/
theorem fix_trim_keeps_first_correct_then_three (q : String) (opts : List POption)
    (h4 : 4 < opts.length) :
    (countCorrect opts = 1 →
      fix_question_structure q opts =
        some ⟨q, opts.filter (fun o => o.is_correct) ++
                 (opts.filter (fun o => !o.is_correct)).take 3⟩) ∧
    (countCorrect opts = 0 →
      fix_question_structure q opts = some ⟨q, markFirstCorrect (opts.take 4)⟩) := by
  constructor
  · intro h1
    have hadj : fixAdjust opts = (opts, 1) := by
      simp [fixAdjust, h1]
    have hresize : fixResize opts =
        opts.filter (fun o => o.is_correct) ++
          (opts.filter (fun o => !o.is_correct)).take 3 := by
      unfold fixResize
      rw [if_neg (by omega), if_pos (by omega),
        if_pos (by rw [ne_eq, filter_correct_nil_iff]; omega)]
      congr 1
      apply List.take_of_length_le
      rw [filter_correct_count, h1]
    have hprops := fixResize_props opts h1
    unfold fix_question_structure
    rw [hadj]
    simp only [hresize] at hprops ⊢
    rw [if_pos ⟨hprops.1, by trivial⟩]
  · intro h0
    match opts, h4 with
    | o0 :: rest, h4 =>
      have hlen : 4 ≤ rest.length := by
        simp only [List.length_cons] at h4; omega
      have ho0 : o0.is_correct = false := by
        simp only [countCorrect, List.filter_cons] at h0
        split at h0 <;> simp_all
      have hrest : countCorrect rest = 0 := by
        simp only [countCorrect, List.filter_cons, ho0, Bool.false_eq_true,
          if_false] at h0 ⊢
        exact h0
      have hrestnil : rest.filter (fun o => o.is_correct) = [] :=
        (filter_correct_nil_iff rest).mpr hrest
      have hrestall : rest.filter (fun o => !o.is_correct) = rest := by
        apply List.filter_eq_self.mpr
        intro a ha
        have := List.filter_eq_nil_iff.mp hrestnil a ha
        simp_all
      have hadj : fixAdjust (o0 :: rest) = (markFirstCorrect (o0 :: rest), 1) := by
        unfold fixAdjust
        rw [if_pos (by omega), if_pos ⟨h0, by simp; omega⟩]
      have hresize : fixResize (markFirstCorrect (o0 :: rest)) =
          markFirstCorrect ((o0 :: rest).take 4) := by
        unfold fixResize markFirstCorrect
        rw [if_neg (by simp; omega), if_pos (by simp; omega)]
      -- the filtered shapes of the marked list
        have hfc : ({ o0 with is_correct := true } :: rest).filter
            (fun o => o.is_correct) = [{ o0 with is_correct := true }] := by
          rw [List.filter_cons]
          simp [hrestnil]
        have hfn : ({ o0 with is_correct := true } :: rest).filter
            (fun o => !o.is_correct) = rest := by
          rw [List.filter_cons]
          simp only [Bool.not_true, Bool.false_eq_true, if_false, hrestall]
        rw [if_pos (by rw [hfc]; simp), hfc, hfn]
        simp [List.take_succ_cons]
      unfold fix_question_structure
      rw [hadj]
      simp only
      rw [hresize]
      rw [if_pos ?_]
      refine ⟨?_, by trivial⟩
      unfold markFirstCorrect
      simp only [List.take_succ_cons, List.length_cons, List.length_take]
      omega

/-! ## JSON values and `json.loads`

The evaluator trusts generated text only after passing it through
`_extract_json`, which parses with Python's `json` module.  JSON values are
embedded as a Lean inductive; numbers are exact rationals. -/

inductive Json where
  | null
  | bool (b : Bool)
  | num (q : ℚ)
  | str (s : String)
  | arr (elems : List Json)
  | obj (entries : List (String × Json))
deriving Repr

/-- JSON insignificant whitespace. -/
def jsonWs (c : Char) : Bool := c = ' ' || c = '\t' || c = '\n' || c = '\r'

def hexVal (c : Char) : Option Nat :=
  if '0' ≤ c ∧ c ≤ '9' then some (c.toNat - '0'.toNat)
  else if 'a' ≤ c ∧ c ≤ 'f' then some (c.toNat - 'a'.toNat + 10)
  else if 'A' ≤ c ∧ c ≤ 'F' then some (c.toNat - 'A'.toNat + 10)
  else none

def digitsToNat (ds : List Char) : Nat :=
  ds.foldl (fun acc c => acc * 10 + (c.toNat - '0'.toNat)) 0

/-- One escape sequence after a backslash: the produced character and the
remaining input. -/
def parseEscape (e : Char) (r : List Char) : Except String (Char × List Char) :=
  match e with
  | '"' => .ok ('"', r)
  | '\\' => .ok ('\\', r)
  | '/' => .ok ('/', r)
  | 'b' => .ok ('\x08', r)
  | 'f' => .ok ('\x0c', r)
  | 'n' => .ok ('\n', r)
  | 'r' => .ok ('\r', r)
  | 't' => .ok ('\t', r)
  | 'u' =>
    match r with
    | h1 :: h2 :: h3 :: h4 :: r2 =>
      match hexVal h1, hexVal h2, hexVal h3, hexVal h4 with
      | some a, some b, some c, some d =>
        .ok (Char.ofNat (((a * 16 + b) * 16 + c) * 16 + d), r2)
      | _, _, _, _ => .error "Invalid hex escape"
    | _ => .error "Invalid hex escape"
  | _ => .error "Invalid escape"

/-- JSON string body after the opening quote (strict mode: raw control
characters rejected, standard escapes honoured); every step consumes at
least one character, so `cs.length` fuel is enough. -/
def parseStrBodyF (fuel : Nat) (cs : List Char) : Except String (String × List Char) :=
  match fuel with
  | 0 => .error "Unterminated string"
  | fuel + 1 =>
    match cs with
    | [] => .error "Unterminated string"
    | '"' :: r => .ok ("", r)
    | '\\' :: e :: r =>
      match parseEscape e r with
      | .error msg => .error msg
      | .ok (c, r2) =>
        match parseStrBodyF fuel r2 with
        | .ok (s, r3) => .ok (⟨c :: s.data⟩, r3)
        | .error msg => .error msg
    | c :: r =>
      if c.toNat < 32 then .error "Invalid control character"
      else
        match parseStrBodyF fuel r with
        | .ok (s, r3) => .ok (⟨c :: s.data⟩, r3)
        | .error msg => .error msg

def parseStrBody (cs : List Char) : Except String (String × List Char) :=
  parseStrBodyF cs.length cs

/-- JSON number (int part, optional fraction, optional exponent), as an
exact rational. -/
def parseNum (cs : List Char) : Except String (Json × List Char) :=
  let (neg, cs1) :=
    match cs with
    | '-' :: r => (true, r)
    | _ => (false, cs)
  let ints := cs1.takeWhile isAsciiDigit
  if ints.isEmpty then .error "Expecting value"
  else if 1 < ints.length ∧ ints.headD '0' = '0' then .error "Leading zero"
  else
    let cs2 := cs1.drop ints.length
    let (fracDigits, cs3) :=
      match cs2 with
      | '.' :: r => (r.takeWhile isAsciiDigit, r.drop (r.takeWhile isAsciiDigit).length)
      | _ => ([], cs2)
    if (match cs2 with | '.' :: _ => fracDigits.isEmpty | _ => false) then
      .error "Expecting digits after decimal point"
    else
      let (hasExp, expNeg, expDigits, cs4) :=
        match cs3 with
        | 'e' :: '-' :: r => (true, true, r.takeWhile isAsciiDigit, r.drop (r.takeWhile isAsciiDigit).length)
        | 'e' :: '+' :: r => (true, false, r.takeWhile isAsciiDigit, r.drop (r.takeWhile isAsciiDigit).length)
        | 'e' :: r => (true, false, r.takeWhile isAsciiDigit, r.drop (r.takeWhile isAsciiDigit).length)
        | 'E' :: '-' :: r => (true, true, r.takeWhile isAsciiDigit, r.drop (r.takeWhile isAsciiDigit).length)
        | 'E' :: '+' :: r => (true, false, r.takeWhile isAsciiDigit, r.drop (r.takeWhile isAsciiDigit).length)
        | 'E' :: r => (true, false, r.takeWhile isAsciiDigit, r.drop (r.takeWhile isAsciiDigit).length)
        | _ => (false, false, [], cs3)
      if hasExp ∧ expDigits.isEmpty then .error "Expecting digits in exponent"
      else
        let base : ℚ := (digitsToNat ints : ℚ) +
          (digitsToNat fracDigits : ℚ) / ((10 : ℚ) ^ fracDigits.length)
        let scaled : ℚ :=
          if expNeg then base / ((10 : ℚ) ^ digitsToNat expDigits)
          else base * ((10 : ℚ) ^ digitsToNat expDigits)
        .ok (.num (if neg then -scaled else scaled), cs4)

mutual

/-- Recursive-descent JSON value parser; the fuel bounds recursion depth and
is chosen generously by `jsonLoads`. -/
def parseVal (fuel : Nat) (cs : List Char) : Except String (Json × List Char) :=
  match fuel with
  | 0 => .error "Out of fuel"
  | fuel + 1 =>
    match cs.dropWhile jsonWs with
    | 'n' :: 'u' :: 'l' :: 'l' :: r => .ok (.null, r)
    | 't' :: 'r' :: 'u' :: 'e' :: r => .ok (.bool true, r)
    | 'f' :: 'a' :: 'l' :: 's' :: 'e' :: r => .ok (.bool false, r)
    | '"' :: r =>
      match parseStrBody r with
      | .ok (s, r2) => .ok (.str s, r2)
      | .error e => .error e
    | '[' :: r =>
      match r.dropWhile jsonWs with
      | ']' :: r2 => .ok (.arr [], r2)
      | r1 =>
        match parseElems fuel r1 with
        | .ok (xs, r2) => .ok (.arr xs, r2)
        | .error e => .error e
    | '{' :: r =>
      match r.dropWhile jsonWs with
      | '}' :: r2 => .ok (.obj [], r2)
      | r1 =>
        match parseMembers fuel r1 with
        | .ok (kvs, r2) => .ok (.obj kvs, r2)
        | .error e => .error e
    | r => parseNum r

/-- Comma-separated array elements up to the closing bracket. -/
def parseElems (fuel : Nat) (cs : List Char) : Except String (List Json × List Char) :=
  match fuel with
  | 0 => .error "Out of fuel"
  | fuel + 1 =>
    match parseVal fuel cs with
    | .error e => .error e
    | .ok (v, r) =>
      match r.dropWhile jsonWs with
      | ',' :: r2 =>
        match parseElems fuel r2 with
        | .ok (vs, r3) => .ok (v :: vs, r3)
        | .error e => .error e
      | ']' :: r2 => .ok ([v], r2)
      | _ => .error "Expecting comma or bracket"

/-- Comma-separated object members up to the closing brace. -/
def parseMembers (fuel : Nat) (cs : List Char) : Except String (List (String × Json) × List Char) :=
  match fuel with
  | 0 => .error "Out of fuel"
  | fuel + 1 =>
    match cs.dropWhile jsonWs with
    | '"' :: r =>
      match parseStrBody r with
      | .error e => .error e
      | .ok (k, r1) =>
        match r1.dropWhile jsonWs with
        | ':' :: r2 =>
          match parseVal fuel r2 with
          | .error e => .error e
          | .ok (v, r3) =>
            match r3.dropWhile jsonWs with
            | ',' :: r4 =>
              match parseMembers fuel r4 with
              | .ok (kvs, r5) => .ok ((k, v) :: kvs, r5)
              | .error e => .error e
            | '}' :: r4 => .ok ([(k, v)], r4)
            | _ => .error "Expecting comma or brace"
        | _ => .error "Expecting colon"
    | _ => .error "Expecting property name"

end

/-- `json.loads` (the subset of JSON the evaluator exchanges): parse one
value and require only whitespace after it. -/
def jsonLoads (s : String) : Except String Json :=
  match parseVal (2 * s.length + 2) s.data with
  | .error e => .error e
  | .ok (v, rest) =>
    if (rest.dropWhile jsonWs).isEmpty then .ok v
    else .error "Extra data"

/-! ## `MultiStageAnswerEvaluator._extract_json` -/

/-- Not a brace (the `[^{}]` character class). -/
def nonBrace (c : Char) : Bool := !(c = '{' || c = '}')

/-- `re.sub(pat + r'\s*', '', text)` for a literal pattern: remove every
occurrence of the pattern together with the whitespace that follows it. -/
def subFence (pat : List Char) (fuel : Nat) (cs : List Char) : List Char :=
  match fuel with
  | 0 => cs
  | fuel + 1 =>
    match cs with
    | [] => []
    | c :: rest =>
      if pat.isPrefixOf (c :: rest) then
        subFence pat fuel (((c :: rest).drop pat.length).dropWhile pyIsSpace)
      else c :: subFence pat fuel rest

/-- The matching engine of the regex `\{[^{}]*(?:\{[^{}]*\}[^{}]*)*\}`,
after the opening `\{[^{}]*` has been consumed: repeatedly consume one
`\{[^{}]*\}[^{}]*` group, then require the final `\}`.  Returns the
remainder of the match and the text after it.  Backtracking cannot rescue a
failed inner group (the final `\}` would have to match at a `{`), so the
scan is deterministic. -/
def braceLoopEnd (fuel : Nat) (cs : List Char) : Option (List Char × List Char) :=
  match fuel with
  | 0 => none
  | fuel + 1 =>
    match cs with
    | [] => none
    | c :: r =>
      if c = '}' then some (['}'], r)
      else if c = '{' then
        match r.dropWhile nonBrace with
        | [] => none
        | c2 :: r2 =>
          if c2 = '}' then
            match braceLoopEnd fuel (r2.dropWhile nonBrace) with
            | some (m, rest) =>
              some ('{' :: (r.takeWhile nonBrace ++ ('}' :: (r2.takeWhile nonBrace ++ m))), rest)
            | none => none
          else none
      else none

/-- Attempt of the regex `\{[^{}]*(?:\{[^{}]*\}[^{}]*)*\}` anchored at the
start of `cs`: returns the matched span and the rest. -/
def braceMatchAt (cs : List Char) : Option (List Char × List Char) :=
  match cs with
  | [] => none
  | c :: r =>
    if c = '{' then
      match braceLoopEnd (r.length + 1) (r.dropWhile nonBrace) with
      | some (m, rest) => some ('{' :: (r.takeWhile nonBrace ++ m), rest)
      | none => none
    else none

/-- `re.search` for that regex: first position whose anchored attempt
succeeds. -/
def braceSearch (cs : List Char) : Option (List Char) :=
  match cs with
  | [] => none
  | c :: rest =>
    match braceMatchAt (c :: rest) with
    | some (m, _) => some m
    | none => braceSearch rest

def fenceJsonPat : List Char := "```json".data

def fenceBarePat : List Char := "```".data

/-- The two `re.sub` fence removals of `_extract_json`. -/
def stripFences (cs : List Char) : List Char :=
  subFence fenceBarePat (subFence fenceJsonPat cs.length cs).length
    (subFence fenceJsonPat cs.length cs)

/-- `json_match.group(0) if json_match else text`. -/
def pickBraceSpan (cs : List Char) : List Char :=
  match braceSearch cs with
  | some m => m
  | none => cs

/-- `MultiStageAnswerEvaluator._extract_json`: strip code fences, locate the
first regex-matched `{...}` span (falling back to the whole text), then
`json.loads` the stripped result.  Parse errors propagate to the calling
stage (the source has no `try` here). -/
def extract_json (text : String) : Except String Json :=
  jsonLoads (pyStrip ⟨pickBraceSpan (stripFences text.data)⟩)

/-! ## Claim C4: the JSON round-trip property of `_extract_json` -/

/-- Top-level keys of a JSON value (for comparing recovered objects). -/
def jsonTopKeys (j : Json) : List String :=
  match j with
  | .obj kvs => kvs.map Prod.fst
  | _ => []

def backtick : Char := Char.ofNat 96

/-- C4 counterexample: for the depth-3 object `{"a": {"b": {"c": 1}}}` the
regex of `_extract_json` (one nesting level only) matches the inner span
`{"b": {"c": 1}}`, so extraction recovers a proper sub-object — its
top-level key is `b`, not `a` — and not an object deep-equal to the
embedded one. -/
theorem extract_json_nested_counterexample :
    jsonLoads "\x7b\"a\": \x7b\"b\": \x7b\"c\": 1\x7d\x7d\x7d" =
      .ok (Json.obj [("a", Json.obj [("b", Json.obj [("c", Json.num 1)])])]) ∧
    extract_json "\x7b\"a\": \x7b\"b\": \x7b\"c\": 1\x7d\x7d\x7d" =
      .ok (Json.obj [("b", Json.obj [("c", Json.num 1)])]) ∧
    jsonTopKeys (Json.obj [("b", Json.obj [("c", Json.num 1)])]) ≠
      jsonTopKeys (Json.obj [("a", Json.obj [("b", Json.obj [("c", Json.num 1)])])]) := by
  refine ⟨by with_unfolding_all rfl, by with_unfolding_all rfl, by decide⟩

theorem takeWhile_append_stable (p : α → Bool) (xs t : List α)
    (h : xs.dropWhile p ≠ []) :
    (xs ++ t).takeWhile p = xs.takeWhile p ∧
      (xs ++ t).dropWhile p = xs.dropWhile p ++ t := by
  induction xs with
  | nil => simp [List.dropWhile] at h
  | cons x rest ih =>
    by_cases hp : p x
    · rw [List.dropWhile_cons, if_pos hp] at h
      have := ih h
      simp only [List.cons_append, List.takeWhile_cons, List.dropWhile_cons,
        hp, if_pos, if_true, this.1, this.2]
      exact ⟨trivial, trivial⟩
    · simp only [List.cons_append, List.takeWhile_cons, List.dropWhile_cons,
        hp, Bool.false_eq_true, if_false]
      constructor <;> simp [hp]

theorem braceLoopEnd_some_ne_nil (fuel : Nat) (cs : List Char) (x : List Char × List Char)
    (h : braceLoopEnd fuel cs = some x) : cs ≠ [] := by
  intro hnil
  subst hnil
  match fuel with
  | 0 => simp [braceLoopEnd] at h
  | fuel + 1 => simp [braceLoopEnd] at h

/-- Inversion: how a successful inner scan must have been produced. -/
theorem braceLoopEnd_inv (n : Nat) (cs m r : List Char)
    (h : braceLoopEnd (n + 1) cs = some (m, r)) :
    (cs = '}' :: r ∧ m = ['}']) ∨
      (∃ r0 r2 m', cs = '{' :: r0 ∧ r0.dropWhile nonBrace = '}' :: r2 ∧
        braceLoopEnd n (r2.dropWhile nonBrace) = some (m', r) ∧
        m = '{' :: (r0.takeWhile nonBrace ++
          ('}' :: (r2.takeWhile nonBrace ++ m')))) := by
  rcases cs with _ | ⟨c, r0⟩
  · simp [braceLoopEnd] at h
  · simp only [braceLoopEnd] at h
    split_ifs at h with hc1 hc2
    · subst hc1
      simp only [Option.some.injEq, Prod.mk.injEq] at h
      exact Or.inl ⟨by rw [h.2], h.1.symm⟩
    · subst hc2
      rcases hdw : r0.dropWhile nonBrace with _ | ⟨c2, r2⟩
      · rw [hdw] at h; simp at h
      · rw [hdw] at h
        simp only at h
        split_ifs at h with hc2'
        · subst hc2'
          rcases hrec : braceLoopEnd n (r2.dropWhile nonBrace) with _ | ⟨m', rest'⟩
          · rw [hrec] at h; simp at h
          · rw [hrec] at h
            simp only [Option.some.injEq, Prod.mk.injEq] at h
            refine Or.inr ⟨r0, r2, m', rfl, hdw, ?_, h.1.symm⟩
            rw [hrec, h.2]

/-- Re-assembly: the closing-brace step. -/
theorem braceLoopEnd_close (n : Nat) (r : List Char) :
    braceLoopEnd (n + 1) ('}' :: r) = some (['}'], r) := by
  simp [braceLoopEnd]

/-- Re-assembly: the inner-group step. -/
theorem braceLoopEnd_open (n : Nat) (r0 r2 m' rest : List Char)
    (hdw : r0.dropWhile nonBrace = '}' :: r2)
    (hrec : braceLoopEnd n (r2.dropWhile nonBrace) = some (m', rest)) :
    braceLoopEnd (n + 1) ('{' :: r0) =
      some ('{' :: (r0.takeWhile nonBrace ++
        ('}' :: (r2.takeWhile nonBrace ++ m'))), rest) := by
  simp [braceLoopEnd, hdw, hrec]

/-- More fuel never changes a successful scan. -/
theorem braceLoopEnd_mono (f f' : Nat) (hle : f ≤ f') (cs : List Char)
    (x : List Char × List Char) (h : braceLoopEnd f cs = some x) :
    braceLoopEnd f' cs = some x := by
  induction f generalizing f' cs x with
  | zero => simp [braceLoopEnd] at h
  | succ n ih =>
    obtain ⟨f'', rfl⟩ : ∃ k, f' = k + 1 := ⟨f' - 1, by omega⟩
    obtain ⟨m, r⟩ := x
    rcases braceLoopEnd_inv n cs m r h with ⟨hcs, hm⟩ | ⟨r0, r2, m', hcs, hdw, hrec, hm⟩
    · subst hcs hm; exact braceLoopEnd_close _ _
    · subst hcs hm
      have hrec' := ih f'' (by omega) _ _ hrec
      exact braceLoopEnd_open _ _ _ _ _ hdw hrec'

/-- A successful scan is insensitive to text appended after the match. -/
theorem braceLoopEnd_append (f : Nat) (cs m r t : List Char)
    (h : braceLoopEnd f cs = some (m, r)) :
    braceLoopEnd f (cs ++ t) = some (m, r ++ t) := by
  induction f generalizing cs m r with
  | zero => simp [braceLoopEnd] at h
  | succ n ih =>
    rcases braceLoopEnd_inv n cs m r h with ⟨hcs, hm⟩ | ⟨r0, r2, m', hcs, hdw, hrec, hm⟩
    · subst hcs hm
      rw [List.cons_append]
      exact braceLoopEnd_close _ _
    · subst hcs hm
      rw [List.cons_append]
      have hne : r0.dropWhile nonBrace ≠ [] := by rw [hdw]; simp
      have hst := takeWhile_append_stable nonBrace r0 t hne
      have hne2 : r2.dropWhile nonBrace ≠ [] :=
        braceLoopEnd_some_ne_nil _ _ _ hrec
      have hst2 := takeWhile_append_stable nonBrace r2 t hne2
      have hdw' : (r0 ++ t).dropWhile nonBrace = '}' :: (r2 ++ t) := by
        rw [hst.2, hdw]; rfl
      have hrec' : braceLoopEnd n ((r2 ++ t).dropWhile nonBrace) = some (m', r ++ t) := by
        rw [hst2.2]; exact ih _ _ _ hrec
      rw [braceLoopEnd_open n (r0 ++ t) (r2 ++ t) m' (r ++ t) hdw' hrec',
        hst.1, hst2.1]

/-- A successful scan's match ends with a closing brace. -/
theorem braceLoopEnd_last (fuel : Nat) (cs : List Char) (m r : List Char)
    (h : braceLoopEnd fuel cs = some (m, r)) : m.getLast? = some '}' := by
  induction fuel generalizing cs m r with
  | zero => simp [braceLoopEnd] at h
  | succ n ih =>
    rcases braceLoopEnd_inv n cs m r h with ⟨_, hm⟩ | ⟨r0, r2, m', _, hdw, hrec, hm⟩
    · subst hm; rfl
    · subst hm
      have hlast := ih _ _ _ hrec
      have hm' : m' ≠ [] := by
        intro hnil; rw [hnil] at hlast; simp at hlast
      have step : ∀ (a : Char) (l : List Char), l ≠ [] →
          (a :: l).getLast? = l.getLast? := by
        intro a l hl
        rw [← List.singleton_append, List.getLast?_append_of_ne_nil _ hl]
      rw [step _ _ (by simp), List.getLast?_append_of_ne_nil _ (by simp),
        step _ _ (by simp [hm']), List.getLast?_append_of_ne_nil _ hm']
      exact hlast

/-- A successful anchored attempt starts at an opening brace. -/
theorem braceMatchAt_some_head (cs : List Char) (x : List Char × List Char)
    (h : braceMatchAt cs = some x) : ∃ r0, cs = '{' :: r0 := by
  rcases cs with _ | ⟨c, r0⟩
  · simp [braceMatchAt] at h
  · simp only [braceMatchAt] at h
    split_ifs at h with hc
    · exact ⟨r0, by rw [hc]⟩

/-- A successful anchored match ends with a closing brace. -/
theorem braceMatchAt_last (cs m r : List Char)
    (h : braceMatchAt cs = some (m, r)) : m.getLast? = some '}' := by
  rcases cs with _ | ⟨c, r0⟩
  · simp [braceMatchAt] at h
  · simp only [braceMatchAt] at h
    split_ifs at h with hc
    · rcases hloop : braceLoopEnd (r0.length + 1) (r0.dropWhile nonBrace)
          with _ | ⟨m', rest'⟩
      · rw [hloop] at h; simp at h
      · rw [hloop] at h
        simp only [Option.some.injEq, Prod.mk.injEq] at h
        have hlast := braceLoopEnd_last _ _ _ _ hloop
        have hm' : m' ≠ [] := by
          intro hnil; rw [hnil] at hlast; simp at hlast
        have hne3 : List.takeWhile nonBrace r0 ++ m' ≠ [] := by
          intro hnil
          rcases List.append_eq_nil.mp hnil with ⟨-, h2⟩
          exact hm' h2
        rw [← h.1, ← List.singleton_append,
          List.getLast?_append_of_ne_nil _ hne3,
          List.getLast?_append_of_ne_nil _ hm']
        exact hlast

/-- A successful anchored match is insensitive to appended text. -/
theorem braceMatchAt_append (cs m r t : List Char)
    (h : braceMatchAt cs = some (m, r)) :
    braceMatchAt (cs ++ t) = some (m, r ++ t) := by
  rcases cs with _ | ⟨c, r0⟩
  · simp [braceMatchAt] at h
  · simp only [braceMatchAt] at h
    split_ifs at h with hc
    · subst hc
      rcases hloop : braceLoopEnd (r0.length + 1) (r0.dropWhile nonBrace)
          with _ | ⟨m', rest'⟩
      · rw [hloop] at h; simp at h
      · rw [hloop] at h
        simp only [Option.some.injEq, Prod.mk.injEq] at h
        have hne : r0.dropWhile nonBrace ≠ [] :=
          braceLoopEnd_some_ne_nil _ _ _ hloop
        have hst := takeWhile_append_stable nonBrace r0 t hne
        rw [List.cons_append]
        have happ := braceLoopEnd_append _ _ _ _ t hloop
        have hmono := braceLoopEnd_mono _ (r0.length + t.length + 1)
          (by omega) _ _ happ
        simp [braceMatchAt, hst.1, hst.2, hmono, ← h.1, ← h.2]

/-- The search skips any prefix free of opening braces. -/
theorem braceSearch_skip (p rest : List Char) (hp : ∀ c ∈ p, c ≠ '{') :
    braceSearch (p ++ rest) = braceSearch rest := by
  induction p with
  | nil => rfl
  | cons c p' ih =>
    have hc := hp c (by simp)
    rw [List.cons_append]
    have hnone : braceMatchAt (c :: (p' ++ rest)) = none := by
      simp only [braceMatchAt]
      rw [if_neg hc]
    simp only [braceSearch, hnone]
    exact ih (fun x hx => hp x (by simp [hx]))

/-- The fence substitution leaves backtick-free text unchanged. -/
theorem subFence_id (p' : List Char) (fuel : Nat) (cs : List Char)
    (h : ∀ c ∈ cs, c ≠ backtick) : subFence (backtick :: p') fuel cs = cs := by
  induction fuel generalizing cs with
  | zero => rfl
  | succ n ih =>
    rcases cs with _ | ⟨c, rest⟩
    · rfl
    · have hc : c ≠ backtick := h c (by simp)
      have hpref : (backtick :: p').isPrefixOf (c :: rest) = false := by
        have : (backtick == c) = false := by
          simp [beq_eq_false_iff_ne]
          exact fun he => hc he.symm
        simp [List.isPrefixOf, this]
      simp only [subFence, hpref, Bool.false_eq_true, if_false]
      rw [ih rest (fun x hx => h x (by simp [hx]))]

/-- Stripping is the identity on a list whose first and last characters are
not whitespace. -/
theorem stripChars_eq_self (cs : List Char)
    (hh : ∀ c, cs.head? = some c → pyIsSpace c = false)
    (hl : ∀ c, cs.getLast? = some c → pyIsSpace c = false) :
    stripChars cs = cs := by
  unfold stripChars
  have h1 : cs.dropWhile pyIsSpace = cs := by
    cases cs with
    | nil => rfl
    | cons c rest =>
      rw [List.dropWhile_cons, if_neg]
      simp [hh c rfl]
  rw [h1]
  have h2 : cs.reverse.dropWhile pyIsSpace = cs.reverse := by
    cases hrev : cs.reverse with
    | nil => rfl
    | cons c rest =>
      rw [List.dropWhile_cons, if_neg]
      have hlast : cs.getLast? = some c := by
        rw [← List.head?_reverse, hrev]; rfl
      simp [hl c hlast]
  rw [h2, List.reverse_reverse]

/-- C4 amended: whenever the fence-stripped text decomposes as a prefix with
no opening brace, followed by a serialized object lying in the language of the
brace regex (its whole text is one anchored match: at most one level of nested
braces, none inside its strings), followed by arbitrary trailing text, then
`_extract_json` recovers exactly the object denoted by that span — deep
equality holds by recovering the very value `json.loads` assigns to it.  This
covers objects wrapped in ```json / ``` code fences (the fences are removed by
the two `re.sub` passes before the search); what is not recovered is deeper
nesting, where the regex matches an inner sub-object. -/
theorem extract_json_recovers_embedded_object (text : String)
    (pre s suf : List Char) (v : Json)
    (hstrip : stripFences text.data = pre ++ (s ++ suf))
    (hpre : ∀ c ∈ pre, c ≠ '{')
    (hmatch : braceMatchAt s = some (s, []))
    (hparse : jsonLoads ⟨s⟩ = .ok v) :
    extract_json text = .ok v := by
  have hsome : braceSearch (pre ++ (s ++ suf)) = some s := by
    rw [braceSearch_skip pre _ hpre]
    obtain ⟨r0, hs⟩ := braceMatchAt_some_head _ _ hmatch
    have happ := braceMatchAt_append _ _ _ suf hmatch
    rw [hs] at happ ⊢
    rw [List.cons_append]
    simp only [braceSearch, List.cons_append] at happ ⊢
    rw [happ]
  have hpick : pickBraceSpan (stripFences text.data) = s := by
    rw [hstrip]
    unfold pickBraceSpan
    rw [hsome]
  unfold extract_json
  rw [hpick]
  have hshape := braceMatchAt_some_head _ _ hmatch
  obtain ⟨r0, hs⟩ := hshape
  have hlast := braceMatchAt_last _ _ _ hmatch
  have hstripid : pyStrip (⟨s⟩ : String) = ⟨s⟩ := by
    show (⟨stripChars s⟩ : String) = ⟨s⟩
    rw [stripChars_eq_self s ?_ ?_]
    · intro c hc
      rw [hs] at hc
      simp only [List.head?_cons, Option.some.injEq] at hc
      subst hc
      rfl
    · intro c hc
      rw [hlast] at hc
      simp only [Option.some.injEq] at hc
      subst hc
      rfl
  rw [hstripid]
  exact hparse

/-- C4 amended witness: a one-level object wrapped in a ```json code fence
and surrounded by chatter is recovered exactly. -/
theorem extract_json_recovers_witness :
    extract_json "Here you go:\n```json\n\x7b\"a\": 1, \"b\": \x7b\"c\": 2\x7d\x7d\n``` done" =
      .ok (Json.obj [("a", Json.num 1), ("b", Json.obj [("c", Json.num 2)])]) := by
  apply extract_json_recovers_embedded_object _ "Here you go:\n".data
    "\x7b\"a\": 1, \"b\": \x7b\"c\": 2\x7d\x7d".data "\ndone".data
  · with_unfolding_all rfl
  · decide
  · decide
  · with_unfolding_all rfl

/-- C8 amended witness: concrete five-option inputs for both the
unique-correct and the no-correct branch. -/
theorem fix_trim_keeps_witness :
    fix_question_structure "Which planet is red?"
        [⟨"w", false⟩, ⟨"x", true⟩, ⟨"y", false⟩, ⟨"z", false⟩, ⟨"v", false⟩] =
      some ⟨"Which planet is red?",
        [⟨"x", true⟩, ⟨"w", false⟩, ⟨"y", false⟩, ⟨"z", false⟩]⟩ ∧
    fix_question_structure "Which planet is blue?"
        [⟨"w", false⟩, ⟨"x", false⟩, ⟨"y", false⟩, ⟨"z", false⟩, ⟨"v", false⟩] =
      some ⟨"Which planet is blue?",
        [⟨"w", true⟩, ⟨"x", false⟩, ⟨"y", false⟩, ⟨"z", false⟩]⟩ := by
  constructor
  · have h := (fix_trim_keeps_first_correct_then_three "Which planet is red?"
      [⟨"w", false⟩, ⟨"x", true⟩, ⟨"y", false⟩, ⟨"z", false⟩, ⟨"v", false⟩]
      (by decide)).1 (by decide)
    exact h.trans (by decide)
  · have h := (fix_trim_keeps_first_correct_then_three "Which planet is blue?"
      [⟨"w", false⟩, ⟨"x", false⟩, ⟨"y", false⟩, ⟨"z", false⟩, ⟨"v", false⟩]
      (by decide)).2 (by decide)
    exact h.trans (by decide)

/-! ## Python-on-JSON primitives used by the evaluator -/

/-- Association lookup in a parsed JSON object (first binding wins). -/
def jLookup (kvs : List (String × Json)) (k : String) : Option Json :=
  match kvs with
  | [] => none
  | (k', v) :: rest => if k' = k then some v else jLookup rest k

/-- `d.get(k, default)`; `AttributeError` on non-dicts like Python. -/
def jGet (j : Json) (k : String) (dflt : Json) : Except String Json :=
  match j with
  | .obj kvs => .ok ((jLookup kvs k).getD dflt)
  | _ => .error "AttributeError: get"

/-- `d[k]` with a string key: `KeyError` when missing, `TypeError` on
values that are not string-subscriptable. -/
def jIndex (j : Json) (k : String) : Except String Json :=
  match j with
  | .obj kvs =>
    match jLookup kvs k with
    | some v => .ok v
    | none => .error ("KeyError: " ++ k)
  | _ => .error "TypeError: not subscriptable by string"

/-- `len(x)` (lists, strings, dicts); `TypeError` otherwise. -/
def pyLen (j : Json) : Except String Nat :=
  match j with
  | .arr xs => .ok xs.length
  | .str s => .ok s.length
  | .obj kvs => .ok kvs.length
  | _ => .error "TypeError: object has no len"

/-- A JSON value used in arithmetic or a numeric comparison: numbers are
themselves, booleans coerce to 0/1, everything else raises `TypeError`. -/
def pyNum (j : Json) : Except String ℚ :=
  match j with
  | .num q => .ok q
  | .bool b => .ok (if b then 1 else 0)
  | _ => .error "TypeError: not a number"

/-- Python truthiness of a JSON value. -/
def pyTruthy (j : Json) : Bool :=
  match j with
  | .null => false
  | .bool b => b
  | .num q => decide (q ≠ 0)
  | .str s => decide (s ≠ "")
  | .arr xs => !xs.isEmpty
  | .obj kvs => !kvs.isEmpty

/-- Substring test on character lists. -/
def listContainsSub (needle hay : List Char) : Bool :=
  match hay with
  | [] => needle.isEmpty
  | c :: rest => needle.isPrefixOf (c :: rest) || listContainsSub needle rest

/-- `k in x`: dict key membership, list membership of a string, substring
test on strings; `TypeError` otherwise. -/
def pyInStr (k : String) (j : Json) : Except String Bool :=
  match j with
  | .obj kvs => .ok (jLookup kvs k).isSome
  | .arr xs =>
    .ok (xs.any (fun v => match v with | .str s => decide (s = k) | _ => false))
  | .str s => .ok (listContainsSub k.data s.data)
  | _ => .error "TypeError: not iterable"

/-- `x[:3]`: list and string slicing; `TypeError` otherwise (string slicing
yields its characters, which `join` then iterates). -/
def pySlice3 (j : Json) : Except String (List Json) :=
  match j with
  | .arr xs => .ok (xs.take 3)
  | .str s => .ok ((s.data.take 3).map (fun c => .str ⟨[c]⟩))
  | _ => .error "TypeError: not subscriptable"

/-- `sep.join(xs)`: every element must be a string. -/
def pyJoinStrs (sep : String) (xs : List Json) : Except String String :=
  match xs with
  | [] => .ok ""
  | [x] =>
    match x with
    | .str s => .ok s
    | _ => .error "TypeError: join"
  | x :: rest =>
    match x with
    | .str s =>
      match pyJoinStrs sep rest with
      | .ok r => .ok (s ++ sep ++ r)
      | .error e => .error e
    | _ => .error "TypeError: join"

/-- Display of a JSON value inside an f-string (numbers with denominator 1
print as integers; the exact float formatting of Python is immaterial to
every property proved here). -/
def jsonDisplay (j : Json) : String :=
  match j with
  | .num q => if q.den = 1 then toString q.num else toString q.num ++ "/" ++ toString q.den
  | .str s => s
  | .bool b => if b then "True" else "False"
  | .null => "None"
  | _ => "..."

/-- Round to the nearest integer, ties to even (Python `round`). -/
def roundHalfEven (q : ℚ) : ℤ :=
  if q - (⌊q⌋ : ℚ) < 1/2 then ⌊q⌋
  else if 1/2 < q - (⌊q⌋ : ℚ) then ⌊q⌋ + 1
  else if ⌊q⌋ % 2 = 0 then ⌊q⌋ else ⌊q⌋ + 1

/-- `round(x, 2)` as exact decimal rounding. -/
def roundQ2 (q : ℚ) : ℚ := (roundHalfEven (q * 100) : ℚ) / 100

/-! ## The multi-stage evaluator (`descriptive_evaluation.py`)

The generation capability is a list of pending responses (`.ok` text or a
raised error), consumed one per `generate_content` call; an exhausted list
models an unreachable capability. -/

abbrev GenState := List (Except String String)

def genCall (st : GenState) : Except String String × GenState :=
  match st with
  | [] => (.error "generation capability unreachable", [])
  | r :: rest => (r, rest)

/-- `str.split()` length, as used by the gold-standard word count. -/
def wordCount (s : String) : Nat := (pySplitWs s).length

def goldFromGen (st : GenState) : String × GenState :=
  match genCall st with
  | (.ok t, st') => (pyStrip t, st')
  | (.error e, st') => ("[Gold standard generation failed: " ++ e ++ "]", st')

/-- STAGE 1, `_generate_gold_standard`: a substantial provided answer
(truthy and at least 30 words) is used directly; otherwise one generation
call, whose failure is caught and embedded in the returned text. -/
def generate_gold_standard (st : GenState) (_question : String)
    (provided_answer : Option String) : String × GenState :=
  match provided_answer with
  | some p => if p ≠ "" ∧ 30 ≤ wordCount p then (pyStrip p, st) else goldFromGen st
  | none => goldFromGen st

def defaultWeights : Json :=
  .obj [("essential", .num (40/100)), ("supporting", .num (20/100)),
        ("keywords", .num (20/100)), ("clarity", .num (10/100)),
        ("grammar", .num (10/100))]

def defaultRubric : Json :=
  .obj [("essential_points", .arr [.str "Core concept explanation"]),
        ("supporting_points", .arr [.str "Additional details"]),
        ("required_keywords", .arr []),
        ("weights", defaultWeights)]

/-- The `all(k in result for k in [...])` structure check of
`_generate_rubric` (a `TypeError` inside `in` is caught by the stage). -/
def rubricKeysPresent (result : Json) : Except String Bool :=
  match pyInStr "essential_points" result with
  | .error e => .error e
  | .ok a =>
    match pyInStr "supporting_points" result with
    | .error e => .error e
    | .ok b =>
      match pyInStr "required_keywords" result with
      | .error e => .error e
      | .ok c => .ok (a && b && c)

/-- STAGE 2, `_generate_rubric`: one generation call, JSON extraction, a
key-presence check; every failure falls back to the fixed default rubric. -/
def generate_rubric (st : GenState) (_question _gold_answer : String) :
    Json × GenState :=
  match genCall st with
  | (.error _, st') => (defaultRubric, st')
  | (.ok text, st') =>
    match extract_json text with
    | .error _ => (defaultRubric, st')
    | .ok result =>
      match rubricKeysPresent result with
      | .error _ => (defaultRubric, st')
      | .ok b => if b then (result, st') else (defaultRubric, st')

def analysisDefaults : List (String × Json) :=
  [("covered_essential", .arr []), ("covered_supporting", .arr []),
   ("keywords_found", .arr []), ("missing_points", .arr []),
   ("factual_errors", .arr []), ("irrelevant_segments", .arr []),
   ("fluff_percent", .num 0), ("grammar_score", .num 7),
   ("clarity_score", .num 7), ("relevance_score", .num 7)]

def analysisFailureDefault : Json :=
  .obj [("covered_essential", .arr []), ("covered_supporting", .arr []),
        ("keywords_found", .arr []),
        ("missing_points", .arr [.str "Analysis failed"]),
        ("factual_errors", .arr []), ("irrelevant_segments", .arr []),
        ("fluff_percent", .num 0), ("grammar_score", .num 5),
        ("clarity_score", .num 5), ("relevance_score", .num 5)]

/-- `result.setdefault(key, default)` over the defaults table. -/
def setDefaults (kvs defaults : List (String × Json)) : List (String × Json) :=
  kvs ++ defaults.filter (fun kv => (jLookup kvs kv.1).isNone)

/-- STAGE 3, `_analyze_student_answer`: one generation call, JSON
extraction, per-field defaults; total failure yields the degraded analysis
with 5.0 scores. -/
def analyze_student_answer (st : GenState) (_question _user_answer _gold : String)
    (_rubric : Json) : Json × GenState :=
  match genCall st with
  | (.error _, st') => (analysisFailureDefault, st')
  | (.ok text, st') =>
    match extract_json text with
    | .error _ => (analysisFailureDefault, st')
    | .ok (.obj kvs) => (.obj (setDefaults kvs analysisDefaults), st')
    | .ok _ => (analysisFailureDefault, st')

/-- STAGE 4, `_check_contradictions`: fail-open to the empty list. -/
def check_contradictions (st : GenState) (_question _user_answer : String) :
    Json × GenState :=
  match genCall st with
  | (.error _, st') => (.arr [], st')
  | (.ok text, st') =>
    match extract_json text with
    | .error _ => (.arr [], st')
    | .ok (.obj kvs) => ((jLookup kvs "contradictions").getD (.arr []), st')
    | .ok _ => (.arr [], st')

/-- The nine named sub-scores of `detailed_breakdown`. -/
structure Breakdown where
  essential_points_score : ℚ
  supporting_points_score : ℚ
  keywords_score : ℚ
  clarity_score : ℚ
  grammar_score : ℚ
  content_score_raw : ℚ
  fluff_penalty : ℚ
  contradiction_penalty : ℚ
  error_penalty : ℚ
deriving Repr

/-- The result dictionary of the evaluator.  The metadata keys that
`evaluate_answer` adds after stage 5 — and that `_get_fallback_result`
omits — are `Option`-valued and default to absent. -/
structure EvalResult where
  overall_score : ℚ
  max_score : ℚ
  percentage : ℚ
  rating : String
  detailed_breakdown : Option Breakdown
  missing_details : Json
  wrong_facts : Json
  contradictions : Json
  strengths : List String
  fluff_percent : Json
  irrelevant_segments : Json
  feedback : String
  suggested_improvement : List String
  execution_time : Option ℚ := none
  model_used : Option String := none
  gold_answer : Option String := none
  rubric : Option Json := none
  error : Option String := none
deriving Repr

/-- `len(contradictions)` guarded by the truthiness test of
`_generate_feedback` (only evaluated when the value is truthy). -/
def pyLenIfTruthy (j : Json) : Except String Nat :=
  if pyTruthy j then pyLen j else pure 0

/-- `', '.join(missing[:3])` guarded by the truthiness test of
`_generate_suggestions`. -/
def joinedOfMissing (missingJ : Json) : Except String String :=
  if pyTruthy missingJ then
    match pySlice3 missingJ with
    | .error e => .error e
    | .ok sl => pyJoinStrs ", " sl
  else pure ""

/-- `round((final_score / max_score) * 100, 2)`: true division raises on a
zero divisor. -/
def pctOf (final_score max_score : ℚ) : Except String ℚ :=
  if max_score = 0 then .error "ZeroDivisionError: division by zero"
  else pure (roundQ2 (final_score / max_score * 100))

/-- `_identify_strengths` (threshold rules over the analysis). -/
def identify_strengths (analysis : Json) : Except String (List String) := do
  let relQ ← pyNum (← jGet analysis "relevance_score" (.num 0))
  let gramQ ← pyNum (← jGet analysis "grammar_score" (.num 0))
  let clarQ ← pyNum (← jGet analysis "clarity_score" (.num 0))
  let ceLen ← pyLen (← jGet analysis "covered_essential" (.arr []))
  let fluffQ ← pyNum (← jGet analysis "fluff_percent" (.num 100))
  let strengths :=
    (if 8 ≤ relQ then ["Highly relevant answer"] else []) ++
    (if 8 ≤ gramQ then ["Good grammar and structure"] else []) ++
    (if 8 ≤ clarQ then ["Clear explanation"] else []) ++
    (if 0 < ceLen then ["Covered " ++ toString ceLen ++ " essential points"] else []) ++
    (if fluffQ < 20 then ["Concise and focused"] else [])
  pure (if strengths = [] then ["Answer submitted"] else strengths)

/-- `_generate_feedback` (template-based string assembly). -/
def generate_feedback (analysis contradictions : Json) (rating : String) :
    Except String String := do
  let nMissing ← pyLen (← jGet analysis "missing_points" (.arr []))
  let nErrs ← pyLen (← jGet analysis "factual_errors" (.arr []))
  let nContr ← pyLenIfTruthy contradictions
  let fluffJ ← jGet analysis "fluff_percent" (.num 0)
  let fluffQ ← pyNum fluffJ
  let gramQ ← pyNum (← jGet analysis "grammar_score" (.num 0))
  let parts :=
    ["Rating: " ++ rating ++ "."] ++
    (if 0 < nMissing then ["Missing " ++ toString nMissing ++ " key point(s)."] else []) ++
    (if 0 < nErrs then ["Contains " ++ toString nErrs ++ " factual error(s)."] else []) ++
    (if pyTruthy contradictions then
      ["Contains " ++ toString nContr ++ " contradiction(s)."] else []) ++
    (if 30 < fluffQ then
      ["Reduce irrelevant content (" ++ jsonDisplay fluffJ ++ "% fluff)."] else []) ++
    (if gramQ < 6 then ["Improve grammar and sentence structure."] else [])
  pure (String.intercalate " " parts)

/-- `_generate_suggestions` (threshold rules over the analysis). -/
def generate_suggestions (analysis contradictions : Json) :
    Except String (List String) := do
  let missingJ ← jGet analysis "missing_points" (.arr [])
  let joined ← joinedOfMissing missingJ
  let fluffQ ← pyNum (← jGet analysis "fluff_percent" (.num 0))
  let clarQ ← pyNum (← jGet analysis "clarity_score" (.num 10))
  let gramQ ← pyNum (← jGet analysis "grammar_score" (.num 10))
  let suggestions :=
    (if pyTruthy missingJ then ["Add coverage of: " ++ joined] else []) ++
    (if pyTruthy contradictions then ["Verify and correct factual contradictions"] else []) ++
    (if 25 < fluffQ then ["Focus on essential information, reduce filler"] else []) ++
    (if clarQ < 7 then ["Improve organization and clarity of explanation"] else []) ++
    (if gramQ < 7 then ["Review grammar and sentence construction"] else [])
  pure (if suggestions = [] then ["Good work! Minor refinements suggested."] else suggestions)

/-- STAGE 5, `_calculate_final_scores`: deterministic weighted arithmetic
with penalties, rating bands and clamping.  It is the only stage without a
`try`, so any raised error (for instance a `KeyError` on the `weights`
mapping) escapes to `evaluate_answer`. -/
def calculate_final_scores (analysis contradictions rubric : Json)
    (max_score : ℚ) : Except String EvalResult := do
  let weights ← jGet rubric "weights" defaultWeights
  let essentialCount ← pyLen (← jGet analysis "covered_essential" (.arr []))
  let essentialTotal ← pyLen (← jGet rubric "essential_points" (.arr [.num 1]))
  let essential_score : ℚ := ((essentialCount : ℚ) / ((max essentialTotal 1 : ℕ) : ℚ)) * 10
  let supportingCount ← pyLen (← jGet analysis "covered_supporting" (.arr []))
  let supportingTotal ← pyLen (← jGet rubric "supporting_points" (.arr [.num 1]))
  let supporting_score : ℚ := ((supportingCount : ℚ) / ((max supportingTotal 1 : ℕ) : ℚ)) * 10
  let keywordsCount ← pyLen (← jGet analysis "keywords_found" (.arr []))
  let keywordsTotal ← pyLen (← jGet rubric "required_keywords" (.arr [.num 1]))
  let keywords_score : ℚ := ((keywordsCount : ℚ) / ((max keywordsTotal 1 : ℕ) : ℚ)) * 10
  let clarity_score ← pyNum (← jGet analysis "clarity_score" (.num 7))
  let grammar_score ← pyNum (← jGet analysis "grammar_score" (.num 7))
  let wE ← pyNum (← jIndex weights "essential")
  let wS ← pyNum (← jIndex weights "supporting")
  let wK ← pyNum (← jIndex weights "keywords")
  let wC ← pyNum (← jIndex weights "clarity")
  let wG ← pyNum (← jIndex weights "grammar")
  let content_score := essential_score * wE + supporting_score * wS +
    keywords_score * wK + clarity_score * wC + grammar_score * wG
  let fluffJ ← jGet analysis "fluff_percent" (.num 0)
  let fluff_percent ← pyNum fluffJ
  let fluff_penalty := fluff_percent / 100 * 2
  let nContr ← pyLen contradictions
  let contradiction_penalty : ℚ := (nContr : ℚ) * (15/10)
  let nErrs ← pyLen (← jGet analysis "factual_errors" (.arr []))
  let error_penalty : ℚ := (nErrs : ℚ) * 1
  let adjusted_score := max 0 (content_score - fluff_penalty - contradiction_penalty - error_penalty)
  let rating :=
    if 85/10 ≤ adjusted_score then "Excellent"
    else if 7 ≤ adjusted_score then "Good"
    else if 5 ≤ adjusted_score then "Average"
    else "Poor"
  let score_multiplier : ℚ :=
    if 85/10 ≤ adjusted_score then 1
    else if 7 ≤ adjusted_score then 95/100
    else if 5 ≤ adjusted_score then 85/100
    else 75/100
  let final_score := max 0 (min max_score (roundQ2 (adjusted_score / 10 * max_score * score_multiplier)))
  let percentage ← pctOf final_score max_score
  let feedback ← generate_feedback analysis contradictions rating
  let missingJ ← jGet analysis "missing_points" (.arr [])
  let wrongJ ← jGet analysis "factual_errors" (.arr [])
  let strengths ← identify_strengths analysis
  let fluffOut ← jGet analysis "fluff_percent" (.num 0)
  let irrelJ ← jGet analysis "irrelevant_segments" (.arr [])
  let suggestions ← generate_suggestions analysis contradictions
  pure {
    overall_score := final_score
    max_score := max_score
    percentage := percentage
    rating := rating
    detailed_breakdown := some {
      essential_points_score := roundQ2 essential_score
      supporting_points_score := roundQ2 supporting_score
      keywords_score := roundQ2 keywords_score
      clarity_score := roundQ2 clarity_score
      grammar_score := roundQ2 grammar_score
      content_score_raw := roundQ2 content_score
      fluff_penalty := roundQ2 fluff_penalty
      contradiction_penalty := roundQ2 contradiction_penalty
      error_penalty := roundQ2 error_penalty }
    missing_details := missingJ
    wrong_facts := wrongJ
    contradictions := contradictions
    strengths := strengths
    fluff_percent := fluffOut
    irrelevant_segments := irrelJ
    feedback := feedback
    suggested_improvement := suggestions }

/-- `_get_fallback_result`. -/
def get_fallback_result (max_score : ℚ) (error_msg : String) : EvalResult :=
  { overall_score := max_score * (5/10)
    max_score := max_score
    percentage := 50
    rating := "Average"
    detailed_breakdown := none
    missing_details := .arr [.str "Evaluation system error"]
    wrong_facts := .arr []
    contradictions := .arr []
    strengths := []
    fluff_percent := .num 0
    irrelevant_segments := .arr []
    feedback := "Automatic evaluation unavailable. Manual review required."
    suggested_improvement := ["System error - manual grading recommended"]
    error := some error_msg }

/-- The `try` body of `evaluate_answer`: stages 1-4 recover internally, so
the only error that can escape is stage 5's.  Also returns the gold answer
and rubric for the metadata attachment. -/
def evaluate_pipeline (st : GenState) (question user_answer : String)
    (standard_answer : Option String) (max_score : ℚ) :
    Except String (EvalResult × String × Json) :=
  let p1 := generate_gold_standard st question standard_answer
  let p2 := generate_rubric p1.2 question p1.1
  let p3 := analyze_student_answer p2.2 question user_answer p1.1 p2.1
  let p4 := check_contradictions p3.2 question user_answer
  match calculate_final_scores p3.1 p4.1 p2.1 max_score with
  | .ok r => .ok (r, p1.1, p2.1)
  | .error e => .error e

/-- `MultiStageAnswerEvaluator.evaluate_answer`: run the pipeline, attach
metadata on success (`elapsed` stands for the wall-clock duration the
shallow embedding cannot measure), degrade to the fallback result on any
unrecovered error.  Total by construction: no exception reaches the
caller. -/
def evaluate_answer (st : GenState) (model_name : String)
    (question user_answer : String) (standard_answer : Option String)
    (max_score : ℚ) (elapsed : ℚ) : EvalResult :=
  match evaluate_pipeline st question user_answer standard_answer max_score with
  | .ok (r, gold, rubric) =>
    { r with execution_time := some (roundQ2 elapsed)
             model_used := some model_name
             gold_answer := some gold
             rubric := some rubric }
  | .error e => get_fallback_result max_score e

/-! ## Inversion of the stage-5 computation -/

theorem except_bind_eq_ok {α β : Type} (x : Except String α)
    (f : α → Except String β) (b : β) :
    (x >>= f = .ok b) ↔ ∃ a, x = .ok a ∧ f a = .ok b := by
  cases x with
  | error e =>
    simp only [Bind.bind, Except.bind]
    constructor
    · intro h; exact absurd h (by simp)
    · rintro ⟨a, ha, -⟩; exact absurd ha (by simp)
  | ok a =>
    simp only [Bind.bind, Except.bind]
    constructor
    · intro h; exact ⟨a, rfl, h⟩
    · rintro ⟨a', ha, hf⟩
      cases ha
      exact hf

theorem except_pure_eq_ok {α : Type} (a b : α) :
    ((pure a : Except String α) = .ok b) ↔ a = b := by
  simp only [Pure.pure, Except.pure, Except.ok.injEq]

/-- What a successful run of `_calculate_final_scores` guarantees: the
metadata fields are absent, the score is the clamp of a rounded value, the
percentage is computed from the score, the divisor is non-zero, and every
one of the five weight lookups succeeded. -/
theorem calc_ok_inv (analysis contradictions rubric : Json) (ms : ℚ)
    (r : EvalResult)
    (h : calculate_final_scores analysis contradictions rubric ms = .ok r) :
    r.error = none ∧ r.execution_time = none ∧ r.model_used = none ∧
    r.max_score = ms ∧ ms ≠ 0 ∧
    (∃ x, r.overall_score = max 0 (min ms (roundQ2 x))) ∧
    r.percentage = roundQ2 (r.overall_score / ms * 100) ∧
    (∃ w, jGet rubric "weights" defaultWeights = .ok w ∧
      (∃ v, jIndex w "essential" = .ok v) ∧
      (∃ v, jIndex w "supporting" = .ok v) ∧
      (∃ v, jIndex w "keywords" = .ok v) ∧
      (∃ v, jIndex w "clarity" = .ok v) ∧
      (∃ v, jIndex w "grammar" = .ok v)) := by
  unfold calculate_final_scores at h
  simp only [except_bind_eq_ok, except_pure_eq_ok] at h
  obtain ⟨w, hw, _, -, _, -, _, -, _, -, _, -, _, -, _, -, _, -, _, -, _, -,
    _, -, _, -, _, -, _, -, _, -, _, -,
    vE, hvE, _, -, vS, hvS, _, -, vK, hvK, _, -, vC, hvC, _, -, vG, hvG, _, -,
    _, -, _, -, _, -, _, -, _, -,
    pct, hpct, _, -, _, -, _, -, _, -, _, -, _, -, _, -, hrec⟩ := h
  unfold pctOf at hpct
  have hms : ms ≠ 0 := by
    intro hms0
    rw [if_pos hms0] at hpct
    exact absurd hpct (by simp)
  rw [if_neg hms] at hpct
  rw [except_pure_eq_ok] at hpct
  subst hrec
  refine ⟨rfl, rfl, rfl, rfl, hms, ⟨_, rfl⟩, ?_, w, hw,
    ⟨vE, hvE⟩, ⟨vS, hvS⟩, ⟨vK, hvK⟩, ⟨vC, hvC⟩, ⟨vG, hvG⟩⟩
  exact hpct.symm

/-- A successful pipeline run carries a result produced by stage 5. -/
theorem pipeline_ok_from_calc (st : GenState) (q ua : String)
    (sa : Option String) (ms : ℚ) (r : EvalResult) (gold : String) (rubric : Json)
    (h : evaluate_pipeline st q ua sa ms = .ok (r, gold, rubric)) :
    ∃ analysis contradictions rub,
      calculate_final_scores analysis contradictions rub ms = .ok r := by
  simp only [evaluate_pipeline] at h
  rcases hcalc : calculate_final_scores
      (analyze_student_answer (generate_rubric
        (generate_gold_standard st q sa).2 q (generate_gold_standard st q sa).1).2
        q ua (generate_gold_standard st q sa).1
        (generate_rubric (generate_gold_standard st q sa).2 q
          (generate_gold_standard st q sa).1).1).1
      (check_contradictions (analyze_student_answer (generate_rubric
        (generate_gold_standard st q sa).2 q (generate_gold_standard st q sa).1).2
        q ua (generate_gold_standard st q sa).1
        (generate_rubric (generate_gold_standard st q sa).2 q
          (generate_gold_standard st q sa).1).1).2 q ua).1
      (generate_rubric (generate_gold_standard st q sa).2 q
        (generate_gold_standard st q sa).1).1 ms with _ | r'
  · rw [hcalc] at h
    exact absurd h (by simp)
  · rw [hcalc] at h
    simp only [Except.ok.injEq, Prod.mk.injEq] at h
    exact ⟨_, _, _, by rw [hcalc, h.1]⟩

/-- C2: `evaluate_answer` never raises — it is a total function of its
inputs — and whenever any internal stage raises an error that no stage
recovers (only stage 5 can), it returns the fallback result with
`overall_score = max_score * 0.5`, `percentage = 50.0`,
`rating = "Average"` and a non-null `error` field. -/
theorem evaluate_answer_fallback_on_error (st : GenState) (mn q ua : String)
    (sa : Option String) (ms elapsed : ℚ) (e : String)
    (h : evaluate_pipeline st q ua sa ms = .error e) :
    evaluate_answer st mn q ua sa ms elapsed = get_fallback_result ms e ∧
    (get_fallback_result ms e).overall_score = ms * (5/10) ∧
    (get_fallback_result ms e).percentage = 50 ∧
    (get_fallback_result ms e).rating = "Average" ∧
    (get_fallback_result ms e).error = some e := by
  refine ⟨?_, rfl, rfl, rfl, rfl⟩
  unfold evaluate_answer
  rw [h]

/-- C2 witness: a concrete run (rubric accepted with a partial `weights`
mapping) makes stage 5 raise, and the caller still receives the fallback
result, not an exception. -/
theorem evaluate_answer_fallback_witness :
    evaluate_pipeline
        [.ok "\x7b\"essential_points\": [], \"supporting_points\": [], \"required_keywords\": [], \"weights\": \x7b\"essential\": 0.4\x7d\x7d",
         .ok "no json here", .ok "still no json"]
        "Define recursion." "An answer."
        (some "a a a a a a a a a a a a a a a a a a a a a a a a a a a a a a") 100 =
      .error "KeyError: supporting" ∧
    evaluate_answer
        [.ok "\x7b\"essential_points\": [], \"supporting_points\": [], \"required_keywords\": [], \"weights\": \x7b\"essential\": 0.4\x7d\x7d",
         .ok "no json here", .ok "still no json"]
        "gemini-pro" "Define recursion." "An answer."
        (some "a a a a a a a a a a a a a a a a a a a a a a a a a a a a a a") 100 2 =
      get_fallback_result 100 "KeyError: supporting" := by
  have h : evaluate_pipeline
      [.ok "\x7b\"essential_points\": [], \"supporting_points\": [], \"required_keywords\": [], \"weights\": \x7b\"essential\": 0.4\x7d\x7d",
       .ok "no json here", .ok "still no json"]
      "Define recursion." "An answer."
      (some "a a a a a a a a a a a a a a a a a a a a a a a a a a a a a a") 100 =
      .error "KeyError: supporting" := by with_unfolding_all rfl
  exact ⟨h, (evaluate_answer_fallback_on_error _ "gemini-pro" _ _ _ _ 2 _ h).1⟩

/-- C9 counterexample: a concrete failing run (the rubric stage accepts an
empty `weights` mapping, stage 5 raises, the fallback is returned) yields
an `EvaluationResult` that carries neither an `execution_time` nor a model
identifier — contradicting the claim that every returned result carries
both. -/
theorem fallback_lacks_metadata_counterexample :
    (evaluate_answer [.error "down",
        .ok "\x7b\"essential_points\": [], \"supporting_points\": [], \"required_keywords\": [], \"weights\": \x7b\x7d\x7d",
        .error "down", .error "down"] "gemini-pro" "State Ohm's law."
        "V = IR." (some "short") 100 3).execution_time = none ∧
    (evaluate_answer [.error "down",
        .ok "\x7b\"essential_points\": [], \"supporting_points\": [], \"required_keywords\": [], \"weights\": \x7b\x7d\x7d",
        .error "down", .error "down"] "gemini-pro" "State Ohm's law."
        "V = IR." (some "short") 100 3).model_used = none ∧
    (evaluate_answer [.error "down",
        .ok "\x7b\"essential_points\": [], \"supporting_points\": [], \"required_keywords\": [], \"weights\": \x7b\x7d\x7d",
        .error "down", .error "down"] "gemini-pro" "State Ohm's law."
        "V = IR." (some "short") 100 3).error ≠ none := by
  refine ⟨by with_unfolding_all rfl, by with_unfolding_all rfl, ?_⟩
  have h : (evaluate_answer [.error "down",
      .ok "\x7b\"essential_points\": [], \"supporting_points\": [], \"required_keywords\": [], \"weights\": \x7b\x7d\x7d",
      .error "down", .error "down"] "gemini-pro" "State Ohm's law."
      "V = IR." (some "short") 100 3).error = some "KeyError: essential" := by
    with_unfolding_all rfl
  rw [h]
  simp

/-- C9 amended: a result of `evaluate_answer` carries the wall-clock
`execution_time` and the model identifier exactly when it is a successful
(non-fallback) result, i.e. when its `error` field is null; the fallback
result carries neither. -/
theorem metadata_present_iff_success (st : GenState) (mn q ua : String)
    (sa : Option String) (ms elapsed : ℚ) :
    ((evaluate_answer st mn q ua sa ms elapsed).execution_time =
        some (roundQ2 elapsed) ↔
      (evaluate_answer st mn q ua sa ms elapsed).error = none) ∧
    ((evaluate_answer st mn q ua sa ms elapsed).model_used = some mn ↔
      (evaluate_answer st mn q ua sa ms elapsed).error = none) := by
  unfold evaluate_answer
  cases hp : evaluate_pipeline st q ua sa ms with
  | error e => simp [get_fallback_result]
  | ok x =>
    obtain ⟨r, gold, rubric⟩ := x
    obtain ⟨a, c, rub, hcalc⟩ := pipeline_ok_from_calc _ _ _ _ _ _ _ _ hp
    have hinv := calc_ok_inv _ _ _ _ _ hcalc
    simp [hinv.1]

/-- C10: when the rubric-stage response parses to an object carrying the
three point/keyword keys but a `weights` mapping missing one of the five
expected keys, the rubric stage accepts it (no fallback to the default
rubric), and stage 5's direct weight indexing then fails, so
`evaluate_answer` returns the 50%-of-max fallback result instead of a
normally computed score. -/
theorem partial_weights_rubric_causes_fallback (rtext : String)
    (rub : List (String × Json)) (w : List (String × Json))
    (aResp cResp : Except String String) (mn q ua p : String) (ms elapsed : ℚ)
    (hp : p ≠ "" ∧ 30 ≤ wordCount p)
    (hextract : extract_json rtext = .ok (.obj rub))
    (hk1 : (jLookup rub "essential_points").isSome)
    (hk2 : (jLookup rub "supporting_points").isSome)
    (hk3 : (jLookup rub "required_keywords").isSome)
    (hw : jLookup rub "weights" = some (.obj w))
    (hmiss : (jLookup w "essential").isNone ∨ (jLookup w "supporting").isNone ∨
      (jLookup w "keywords").isNone ∨ (jLookup w "clarity").isNone ∨
      (jLookup w "grammar").isNone) :
    generate_rubric [.ok rtext, aResp, cResp] q (pyStrip p) =
      (.obj rub, [aResp, cResp]) ∧
    ∃ e, evaluate_answer [.ok rtext, aResp, cResp] mn q ua (some p) ms elapsed =
      get_fallback_result ms e := by
  have hgold : generate_gold_standard [.ok rtext, aResp, cResp] q (some p) =
      (pyStrip p, [.ok rtext, aResp, cResp]) := by
    simp only [generate_gold_standard]
    rw [if_pos hp]
  have hrubric : generate_rubric [.ok rtext, aResp, cResp] q (pyStrip p) =
      (.obj rub, [aResp, cResp]) := by
    unfold generate_rubric genCall
    simp only [hextract]
    have hpres : rubricKeysPresent (.obj rub) = .ok true := by
      unfold rubricKeysPresent pyInStr
      simp [hk1, hk2, hk3]
    rw [hpres]
    simp
  refine ⟨hrubric, ?_⟩
  -- stage 5 cannot succeed: every success performs all five weight lookups
  have hfail : ∀ analysis contradictions,
      ∀ r, calculate_final_scores analysis contradictions (.obj rub) ms ≠ .ok r := by
    intro analysis contradictions r hok
    obtain ⟨-, -, -, -, -, -, -, w', hw', hE, hS, hK, hC, hG⟩ :=
      calc_ok_inv _ _ _ _ _ hok
    have hw'' : w' = .obj w := by
      simp only [jGet] at hw'
      rw [hw] at hw'
      simpa using hw'.symm
    subst hw''
    simp only [jIndex] at hE hS hK hC hG
    rcases hmiss with hm | hm | hm | hm | hm <;>
      rw [Option.isNone_iff_eq_none] at hm
    · rw [hm] at hE; obtain ⟨v, hv⟩ := hE; simp at hv
    · rw [hm] at hS; obtain ⟨v, hv⟩ := hS; simp at hv
    · rw [hm] at hK; obtain ⟨v, hv⟩ := hK; simp at hv
    · rw [hm] at hC; obtain ⟨v, hv⟩ := hC; simp at hv
    · rw [hm] at hG; obtain ⟨v, hv⟩ := hG; simp at hv
  unfold evaluate_answer evaluate_pipeline
  rw [hgold]
  simp only
  rw [hrubric]
  simp only
  rcases hcalc : calculate_final_scores
      (analyze_student_answer [aResp, cResp] q ua (pyStrip p) (.obj rub)).1
      (check_contradictions (analyze_student_answer [aResp, cResp] q ua
        (pyStrip p) (.obj rub)).2 q ua).1
      (.obj rub) ms with e | r
  · exact ⟨e, rfl⟩
  · exact absurd hcalc (hfail _ _ r)

/-- C10 witness: the concrete partial-weights scenario ends in the 50%
fallback. -/
theorem partial_weights_witness :
    evaluate_answer
        [.ok "\x7b\"essential_points\": [\"point\"], \"supporting_points\": [], \"required_keywords\": [], \"weights\": \x7b\"essential\": 0.4, \"supporting\": 0.2\x7d\x7d",
         .ok "\x7b\"fluff_percent\": 10\x7d", .ok "\x7b\"contradictions\": []\x7d"]
        "gemini-pro" "Explain osmosis." "Water moves."
        (some "b b b b b b b b b b b b b b b b b b b b b b b b b b b b b b") 80 1 =
      get_fallback_result 80 "KeyError: keywords" ∧
    (get_fallback_result 80 "KeyError: keywords").overall_score = 40 := by
  constructor
  · obtain ⟨-, e, he⟩ := partial_weights_rubric_causes_fallback
      "\x7b\"essential_points\": [\"point\"], \"supporting_points\": [], \"required_keywords\": [], \"weights\": \x7b\"essential\": 0.4, \"supporting\": 0.2\x7d\x7d"
      [("essential_points", .arr [.str "point"]), ("supporting_points", .arr []),
       ("required_keywords", .arr []),
       ("weights", .obj [("essential", .num (4/10)), ("supporting", .num (2/10))])]
      [("essential", .num (4/10)), ("supporting", .num (2/10))]
      (.ok "\x7b\"fluff_percent\": 10\x7d") (.ok "\x7b\"contradictions\": []\x7d")
      "gemini-pro" "Explain osmosis." "Water moves."
      "b b b b b b b b b b b b b b b b b b b b b b b b b b b b b b" 80 1
      (by constructor
          · simp
          · with_unfolding_all decide)
      (by with_unfolding_all rfl) (by with_unfolding_all rfl)
      (by with_unfolding_all rfl) (by with_unfolding_all rfl)
      (by with_unfolding_all rfl)
      (by right; right; left; with_unfolding_all rfl)
    rw [he]
    have : e = "KeyError: keywords" := by
      have h2 : evaluate_answer
          [.ok "\x7b\"essential_points\": [\"point\"], \"supporting_points\": [], \"required_keywords\": [], \"weights\": \x7b\"essential\": 0.4, \"supporting\": 0.2\x7d\x7d",
           .ok "\x7b\"fluff_percent\": 10\x7d", .ok "\x7b\"contradictions\": []\x7d"]
          "gemini-pro" "Explain osmosis." "Water moves."
          (some "b b b b b b b b b b b b b b b b b b b b b b b b b b b b b b") 80 1 =
          get_fallback_result 80 "KeyError: keywords" := by with_unfolding_all rfl
      rw [h2] at he
      have := congrArg EvalResult.error he
      simpa [get_fallback_result] using this.symm
    rw [this]
  · with_unfolding_all rfl

/-! ## Properties of the rounding function -/

theorem rhe_ge_floor (q : ℚ) : ⌊q⌋ ≤ roundHalfEven q := by
  unfold roundHalfEven
  split_ifs <;> omega

theorem rhe_le_floor_add_one (q : ℚ) : roundHalfEven q ≤ ⌊q⌋ + 1 := by
  unfold roundHalfEven
  split_ifs <;> omega

theorem roundHalfEven_mono (x y : ℚ) (h : x ≤ y) :
    roundHalfEven x ≤ roundHalfEven y := by
  have hf : ⌊x⌋ ≤ ⌊y⌋ := Int.floor_le_floor h
  rcases lt_or_eq_of_le hf with hlt | heq
  · have h1 := rhe_le_floor_add_one x
    have h2 := rhe_ge_floor y
    omega
  · unfold roundHalfEven
    rw [← heq]
    split_ifs <;> first | omega | linarith

theorem roundQ2_mono (x y : ℚ) (h : x ≤ y) : roundQ2 x ≤ roundQ2 y := by
  unfold roundQ2
  have hm := roundHalfEven_mono (x * 100) (y * 100) (by linarith)
  have hc : ((roundHalfEven (x * 100) : ℤ) : ℚ) ≤ ((roundHalfEven (y * 100) : ℤ) : ℚ) :=
    Int.cast_le.mpr hm
  linarith

theorem roundQ2_zero : roundQ2 0 = 0 := by
  norm_num [roundQ2, roundHalfEven]

theorem roundQ2_hundred : roundQ2 100 = 100 := by
  have h1 : ((100 : ℚ) * 100) = ((10000 : ℤ) : ℚ) := by norm_num
  have h2 : ⌊((10000 : ℤ) : ℚ)⌋ = (10000 : ℤ) := Int.floor_intCast _
  unfold roundQ2 roundHalfEven
  rw [h1, h2]
  norm_num

/-- C6: the spec's worked scenario — weights 0.4/0.2/0.2/0.1/0.1, 2 of 2
essential points covered, 0 of 1 supporting, 0 keywords found with 0
required (floored to 1), clarity 8, grammar 8, no fluff, no contradictions,
no factual errors, max_score 100 — computes content 5.6, rating "Average"
(so multiplier 0.85) and an overall score of 47.6. -/
theorem scenario_average_band_score :
    (calculate_final_scores
      (.obj [("covered_essential", .arr [.str "p1", .str "p2"]),
             ("covered_supporting", .arr []),
             ("keywords_found", .arr []), ("missing_points", .arr []),
             ("factual_errors", .arr []), ("irrelevant_segments", .arr []),
             ("fluff_percent", .num 0), ("grammar_score", .num 8),
             ("clarity_score", .num 8), ("relevance_score", .num 8)])
      (.arr [])
      (.obj [("essential_points", .arr [.str "e1", .str "e2"]),
             ("supporting_points", .arr [.str "s1"]),
             ("required_keywords", .arr []),
             ("weights", .obj [("essential", .num (40/100)),
                               ("supporting", .num (20/100)),
                               ("keywords", .num (20/100)),
                               ("clarity", .num (10/100)),
                               ("grammar", .num (10/100))])])
      100).map (fun r =>
        (r.overall_score, r.percentage, r.rating,
         r.detailed_breakdown.map (fun b => b.content_score_raw))) =
    .ok (476/10, 476/10, "Average", some (56/10)) := by
  with_unfolding_all rfl

/-! ## The score aggregator on well-typed inputs

The spec's `AnswerAnalysis` and `Rubric` are value objects with list- and
number-typed fields; the evaluator receives them as parsed JSON.  The
structures below are those value objects, converted to JSON when fed to
stage 5 — this is the input domain over which claims C3 and C5 quantify. -/

structure AnswerAnalysis where
  covered_essential : List String
  covered_supporting : List String
  keywords_found : List String
  missing_points : List String
  factual_errors : List String
  irrelevant_segments : List String
  fluff_percent : ℚ
  grammar_score : ℚ
  clarity_score : ℚ
  relevance_score : ℚ
deriving Repr

/-- A list of strings as a JSON array. -/
def strArr (l : List String) : Json := .arr (l.map .str)

def analysisToJson (a : AnswerAnalysis) : Json :=
  .obj [("covered_essential", strArr a.covered_essential),
        ("covered_supporting", strArr a.covered_supporting),
        ("keywords_found", strArr a.keywords_found),
        ("missing_points", strArr a.missing_points),
        ("factual_errors", strArr a.factual_errors),
        ("irrelevant_segments", strArr a.irrelevant_segments),
        ("fluff_percent", .num a.fluff_percent),
        ("grammar_score", .num a.grammar_score),
        ("clarity_score", .num a.clarity_score),
        ("relevance_score", .num a.relevance_score)]

/-- A rubric with its full five-key weights mapping. -/
structure WRubric where
  essential_points : List String
  supporting_points : List String
  required_keywords : List String
  wEssential : ℚ
  wSupporting : ℚ
  wKeywords : ℚ
  wClarity : ℚ
  wGrammar : ℚ
deriving Repr

def rubricToJson (rub : WRubric) : Json :=
  .obj [("essential_points", strArr rub.essential_points),
        ("supporting_points", strArr rub.supporting_points),
        ("required_keywords", strArr rub.required_keywords),
        ("weights", .obj [("essential", .num rub.wEssential),
                          ("supporting", .num rub.wSupporting),
                          ("keywords", .num rub.wKeywords),
                          ("clarity", .num rub.wClarity),
                          ("grammar", .num rub.wGrammar)])]

/-- The weighted content score of stage 5, written over the typed inputs. -/
def contentScoreOf (a : AnswerAnalysis) (rub : WRubric) : ℚ :=
  ((a.covered_essential.length : ℚ) / ((max rub.essential_points.length 1 : ℕ) : ℚ)) * 10 * rub.wEssential +
  ((a.covered_supporting.length : ℚ) / ((max rub.supporting_points.length 1 : ℕ) : ℚ)) * 10 * rub.wSupporting +
  ((a.keywords_found.length : ℚ) / ((max rub.required_keywords.length 1 : ℕ) : ℚ)) * 10 * rub.wKeywords +
  a.clarity_score * rub.wClarity + a.grammar_score * rub.wGrammar

/-- The penalty-adjusted score (floored at zero). -/
def adjustedOf (a : AnswerAnalysis) (nContr : ℕ) (rub : WRubric) : ℚ :=
  max 0 (contentScoreOf a rub - a.fluff_percent / 100 * 2 -
    (nContr : ℚ) * (15/10) - (a.factual_errors.length : ℚ) * 1)

/-- The bias-balancing multiplier of the rating band. -/
def multOf (adj : ℚ) : ℚ :=
  if 85/10 ≤ adj then 1
  else if 7 ≤ adj then 95/100
  else if 5 ≤ adj then 85/100
  else 75/100

/-- The rating band label. -/
def ratingOf (adj : ℚ) : String :=
  if 85/10 ≤ adj then "Excellent"
  else if 7 ≤ adj then "Good"
  else if 5 ≤ adj then "Average"
  else "Poor"

/-- The clamped, rounded final score. -/
def finalOf (adj ms : ℚ) : ℚ :=
  max 0 (min ms (roundQ2 (adj / 10 * ms * multOf adj)))

/-- The pure mirror of `pyJoinStrs` on plain strings. -/
def joinStrs (sep : String) : List String → String
  | [] => ""
  | [x] => x
  | x :: rest => x ++ sep ++ joinStrs sep rest

theorem pyJoinStrs_map (sep : String) (l : List String) :
    pyJoinStrs sep (l.map .str) = .ok (joinStrs sep l) := by
  induction l with
  | nil => rfl
  | cons x rest ih =>
    cases rest with
    | nil => rfl
    | cons y r2 =>
      simp only [List.map_cons] at ih ⊢
      simp only [pyJoinStrs, joinStrs, ih]

theorem pyLenIfTruthy_arr (xs : List Json) :
    pyLenIfTruthy (.arr xs) = .ok (if xs.isEmpty then 0 else xs.length) := by
  unfold pyLenIfTruthy pyTruthy pyLen
  cases h : xs.isEmpty <;> simp [h, pure, Except.pure]

theorem joinedOfMissing_str (l : List String) :
    joinedOfMissing (strArr l) =
      .ok (if (l.map Json.str).isEmpty then "" else joinStrs ", " (l.take 3)) := by
  unfold joinedOfMissing pyTruthy strArr pySlice3
  cases h : (l.map Json.str).isEmpty with
  | true => simp [h, pure, Except.pure]
  | false =>
    simp only [h, Bool.not_false, if_true, if_false]
    rw [← List.map_take, pyJoinStrs_map]
    simp

theorem gen_feedback_typed (a : AnswerAnalysis) (contr : Json) (rating : String)
    (nC : ℕ) (hC : pyLenIfTruthy contr = .ok nC) :
    ∃ s, generate_feedback (analysisToJson a) contr rating = .ok s := by
  unfold generate_feedback
  simp only [except_bind_eq_ok, except_pure_eq_ok]
  exact ⟨_, _, rfl, _, rfl, _, rfl, _, rfl, nC, hC, _, rfl, _, rfl, _, rfl,
    _, rfl, rfl⟩

theorem gen_suggestions_typed (a : AnswerAnalysis) (contr : Json) :
    ∃ s, generate_suggestions (analysisToJson a) contr = .ok s := by
  unfold generate_suggestions
  simp only [except_bind_eq_ok, except_pure_eq_ok]
  exact ⟨_, _, rfl, _, joinedOfMissing_str a.missing_points, _, rfl, _, rfl,
    _, rfl, _, rfl, _, rfl, _, rfl, rfl⟩

theorem identify_strengths_typed (a : AnswerAnalysis) :
    ∃ s, identify_strengths (analysisToJson a) = .ok s :=
  ⟨_, rfl⟩

/-- Running stage 5 on well-typed inputs always succeeds, and the score,
rating and percentage are the closed-form expressions. -/
theorem calc_typed_run (a : AnswerAnalysis) (cs : List String) (rub : WRubric)
    (ms : ℚ) (hms : ms ≠ 0) :
    ∃ r, calculate_final_scores (analysisToJson a) (strArr cs) (rubricToJson rub) ms = .ok r ∧
      r.overall_score = finalOf (adjustedOf a cs.length rub) ms ∧
      r.rating = ratingOf (adjustedOf a cs.length rub) ∧
      r.percentage = roundQ2 (finalOf (adjustedOf a cs.length rub) ms / ms * 100) := by
  have hpct : ∀ f : ℚ, pctOf f ms = .ok (roundQ2 (f / ms * 100)) := by
    intro f
    unfold pctOf
    rw [if_neg hms]
    rfl
  unfold calculate_final_scores
  simp only [except_bind_eq_ok, except_pure_eq_ok]
  refine ⟨_, ⟨_, rfl, _, rfl, _, rfl, _, rfl, _, rfl, _, rfl, _, rfl, _, rfl,
    _, rfl, _, rfl, _, rfl, _, rfl, _, rfl, _, rfl, _, rfl, _, rfl,
    _, rfl, _, rfl, _, rfl, _, rfl, _, rfl, _, rfl, _, rfl, _, rfl,
    _, rfl, _, rfl, _, rfl, _, rfl, _, rfl, _, rfl, _, rfl, _, rfl,
    _, hpct _,
    _, (gen_feedback_typed a (strArr cs) _ _ (pyLenIfTruthy_arr _)).choose_spec,
    _, rfl, _, rfl,
    _, (identify_strengths_typed a).choose_spec,
    _, rfl, _, rfl,
    _, (gen_suggestions_typed a (strArr cs)).choose_spec,
    rfl⟩, ?_, ?_, ?_⟩
  · simp only [finalOf, adjustedOf, contentScoreOf, multOf, List.length_map]
  · simp only [ratingOf, adjustedOf, contentScoreOf, List.length_map]
  · simp only [finalOf, adjustedOf, contentScoreOf, multOf, List.length_map]


theorem finalOf_nonneg (adj ms : ℚ) : 0 ≤ finalOf adj ms := by
  unfold finalOf
  exact le_max_left _ _

theorem finalOf_le_ms (adj ms : ℚ) (hms : 0 ≤ ms) : finalOf adj ms ≤ ms := by
  unfold finalOf
  exact max_le hms (min_le_left _ _)

theorem adjustedOf_nonneg (a : AnswerAnalysis) (n : ℕ) (rub : WRubric) :
    0 ≤ adjustedOf a n rub := by
  unfold adjustedOf
  exact le_max_left _ _

theorem rated_mono (x y : ℚ) (hx : 0 ≤ x) (hxy : x ≤ y) :
    x * multOf x ≤ y * multOf y := by
  unfold multOf
  split_ifs <;> linarith

theorem finalOf_mono (x y ms : ℚ) (hms : 0 ≤ ms) (hx : 0 ≤ x) (hxy : x ≤ y) :
    finalOf x ms ≤ finalOf y ms := by
  have h1 : x * multOf x ≤ y * multOf y := rated_mono x y hx hxy
  have h2 : x / 10 * ms * multOf x ≤ y / 10 * ms * multOf y := by
    have h3 := mul_le_mul_of_nonneg_right h1 (by linarith : (0:ℚ) ≤ ms / 10)
    calc x / 10 * ms * multOf x = x * multOf x * (ms / 10) := by ring
      _ ≤ y * multOf y * (ms / 10) := h3
      _ = y / 10 * ms * multOf y := by ring
  unfold finalOf
  exact max_le_max le_rfl (min_le_min le_rfl (roundQ2_mono _ _ h2))

/-- C3: for every analysis, contradiction list, rubric and positive max_score --
including adversarial numeric field values such as a fluff percentage outside
0-100 or sub-scores outside 0-10 -- the score aggregator succeeds and returns an
overall_score within [0, max_score] and a percentage within [0, 100]. -/
theorem aggregator_bounds (a : AnswerAnalysis) (cs : List String) (rub : WRubric)
    (ms : ℚ) (hms : 0 < ms) :
    ∃ r, calculate_final_scores (analysisToJson a) (strArr cs) (rubricToJson rub) ms = .ok r ∧
      0 ≤ r.overall_score ∧ r.overall_score ≤ ms ∧
      0 ≤ r.percentage ∧ r.percentage ≤ 100 := by
  obtain ⟨r, hrun, ho, -, hp⟩ := calc_typed_run a cs rub ms (ne_of_gt hms)
  have h0 : 0 ≤ finalOf (adjustedOf a cs.length rub) ms := finalOf_nonneg _ _
  have h1 : finalOf (adjustedOf a cs.length rub) ms ≤ ms := finalOf_le_ms _ _ hms.le
  refine ⟨r, hrun, ?_, ?_, ?_, ?_⟩
  · rw [ho]; exact h0
  · rw [ho]; exact h1
  · rw [hp]
    have hq : (0:ℚ) ≤ finalOf (adjustedOf a cs.length rub) ms / ms * 100 :=
      mul_nonneg (div_nonneg h0 hms.le) (by norm_num)
    calc (0:ℚ) = roundQ2 0 := roundQ2_zero.symm
      _ ≤ _ := roundQ2_mono _ _ hq
  · rw [hp]
    have hd : finalOf (adjustedOf a cs.length rub) ms / ms ≤ 1 := (div_le_one hms).mpr h1
    have hq : finalOf (adjustedOf a cs.length rub) ms / ms * 100 ≤ 100 := by linarith
    calc roundQ2 (finalOf (adjustedOf a cs.length rub) ms / ms * 100)
        ≤ roundQ2 100 := roundQ2_mono _ _ hq
      _ = 100 := roundQ2_hundred

theorem aggregator_bounds_witness :
    (0:ℚ) < 80 ∧
    ∃ r, calculate_final_scores
        (analysisToJson ⟨["e1", "e2", "e3"], [], [], [], ["x1", "x2"], [], 500, -3, 50, 0⟩)
        (strArr ["c1"])
        (rubricToJson ⟨["p"], [], [], 4/10, 2/10, 2/10, 1/10, 1/10⟩) 80 = .ok r ∧
      0 ≤ r.overall_score ∧ r.overall_score ≤ 80 ∧
      0 ≤ r.percentage ∧ r.percentage ≤ 100 :=
  ⟨by norm_num,
   aggregator_bounds ⟨["e1", "e2", "e3"], [], [], [], ["x1", "x2"], [], 500, -3, 50, 0⟩
     ["c1"] ⟨["p"], [], [], 4/10, 2/10, 2/10, 1/10, 1/10⟩ 80 (by norm_num)⟩

/-- C5: holding the rubric, max_score and every other analysis field fixed,
raising fluff_percent, adding contradictions, or adding factual errors never
increases the overall_score: the run with the larger penalty drivers scores no
higher than the baseline run, across rating-band boundaries included. -/
theorem aggregator_monotone (a : AnswerAnalysis) (cs cs' : List String)
    (rub : WRubric) (ms f' : ℚ) (errs' : List String) (hms : 0 < ms)
    (hf : a.fluff_percent ≤ f') (hn : cs.length ≤ cs'.length)
    (he : a.factual_errors.length ≤ errs'.length) :
    ∃ r r',
      calculate_final_scores (analysisToJson a) (strArr cs) (rubricToJson rub) ms = .ok r ∧
      calculate_final_scores
        (analysisToJson { a with fluff_percent := f', factual_errors := errs' })
        (strArr cs') (rubricToJson rub) ms = .ok r' ∧
      r'.overall_score ≤ r.overall_score := by
  obtain ⟨r, hrun, ho, -, -⟩ := calc_typed_run a cs rub ms (ne_of_gt hms)
  obtain ⟨r', hrun', ho', -, -⟩ :=
    calc_typed_run { a with fluff_percent := f', factual_errors := errs' } cs' rub ms
      (ne_of_gt hms)
  refine ⟨r, r', hrun, hrun', ?_⟩
  rw [ho, ho']
  apply finalOf_mono _ _ _ hms.le (adjustedOf_nonneg _ _ _)
  have hc2 : ((cs.length : ℕ) : ℚ) ≤ ((cs'.length : ℕ) : ℚ) := by exact_mod_cast hn
  have hc3 : ((a.factual_errors.length : ℕ) : ℚ) ≤ ((errs'.length : ℕ) : ℚ) := by
    exact_mod_cast he
  unfold adjustedOf contentScoreOf
  dsimp only
  exact max_le_max le_rfl (by linarith)

theorem aggregator_monotone_witness :
    (⟨["e1"], ["s1"], [], [], ["x1"], [], 10, 7, 8, 9⟩ : AnswerAnalysis).fluff_percent ≤ 25 ∧
    (["c1"] : List String).length ≤ (["c1", "c2"] : List String).length ∧
    (⟨["e1"], ["s1"], [], [], ["x1"], [], 10, 7, 8, 9⟩ : AnswerAnalysis).factual_errors.length ≤
      (["x1", "x2"] : List String).length ∧
    ∃ r r',
      calculate_final_scores
        (analysisToJson ⟨["e1"], ["s1"], [], [], ["x1"], [], 10, 7, 8, 9⟩)
        (strArr ["c1"])
        (rubricToJson ⟨["p1", "p2"], ["s"], ["k"], 4/10, 2/10, 2/10, 1/10, 1/10⟩) 100 = .ok r ∧
      calculate_final_scores
        (analysisToJson { (⟨["e1"], ["s1"], [], [], ["x1"], [], 10, 7, 8, 9⟩ : AnswerAnalysis) with
          fluff_percent := 25, factual_errors := ["x1", "x2"] })
        (strArr ["c1", "c2"])
        (rubricToJson ⟨["p1", "p2"], ["s"], ["k"], 4/10, 2/10, 2/10, 1/10, 1/10⟩) 100 = .ok r' ∧
      r'.overall_score ≤ r.overall_score :=
  ⟨by norm_num, by norm_num, by norm_num,
   aggregator_monotone ⟨["e1"], ["s1"], [], [], ["x1"], [], 10, 7, 8, 9⟩
     ["c1"] ["c1", "c2"] ⟨["p1", "p2"], ["s"], ["k"], 4/10, 2/10, 2/10, 1/10, 1/10⟩
     100 25 ["x1", "x2"] (by norm_num) (by norm_num) (by norm_num) (by norm_num)⟩

end Milms
